import Mathlib

/-!
Verification development for the measurement-and-correlation pipeline of the
dvbcss-synctiming repository, shallowly embedding the orchestration module
`src/measurer.py`.  Python numbers are modelled as rationals, raw sample bytes
as naturals, Python exceptions as an explicit error type carried by `Except`,
and the external collaborators (the arduino capture device, the detection
module `detect.py` and the comparison backend `analyse.py`, none of which are
part of the embedded module) as parameters supplying their results.
-/

set_option maxRecDepth 4000

/-- Python exception kinds that the embedded code can raise, tagged so that a
`ValueError` (configuration error) is distinguishable from a `KeyError`,
`TypeError`, `IndexError`, `AttributeError` or the module's own
`DubiousInput` exception class. -/
inductive PyError where
  | valueError (msg : String)
  | keyError (msg : String)
  | typeError (msg : String)
  | indexError (msg : String)
  | attributeError (msg : String)
  | dubiousInput (msg : String)
deriving Repr, DecidableEq, BEq

/-- Round-trip timing data returned by the arduino collaborator
(`arduino.capture`).  Its internal shape is opaque to `measurer.py`, which
only stores and forwards it; modelled as a list of clock readings. -/
abbrev TimeData := List ℚ

/-- A correlation tuple as stored by `measurer.py`:
`(localWallClockTime, (wallClockTime, syncTimelineValue, speedMultiplier))`. -/
abbrev CorrelationQ := ℚ × (ℚ × ℚ × ℚ)

/-- One per-pin data channel produced by `repackageSamples`.  The Python code
represents it as a dict with keys `pinName`, `isAudio`, `min`, `max`, to which
`detectBeepsAndFlashes` later adds the key `eventDuration`; the optional field
models the initially absent key. -/
structure RawChannel where
  pinName : String
  isAudio : Bool
  max : List ℕ
  min : List ℕ
  eventDuration : Option ℚ := none
deriving Repr, DecidableEq, BEq

/-- One entry of `self.testPackage` and the input shape of `doComparison`:
a dict with keys `pinName`, `observed`, `expected`. -/
structure ComparisonChannel where
  pinName : String
  observed : List ℚ
  expected : List ℚ
deriving Repr, DecidableEq, BEq

/-- The `latestCt` value read by `ctsRecorder` from the sync timeline clock
controller: a control timestamp with a wall-clock time, a content (sync
timeline) time, and the timeline speed multiplier. -/
structure ControlTimestamp where
  wallClockTime : ℚ
  contentTime : ℚ
  timelineSpeedMultiplier : ℚ
deriving Repr, DecidableEq, BEq

/-- The clock readings consumed by one call of `Measurer.snapShot`:
`syncTimelineClock.ticks`, the conversion of that reading to wall clock ticks
via `toOtherClockTicks`, and `syncTimelineClock.speed`. -/
structure SyncClockObs where
  syncTicks : ℚ
  wallTicksOfSync : ℚ
  speed : ℚ
deriving Repr, DecidableEq, BEq

/-- The tuple returned by `arduino.capture`: due start and finish times of the
sampling window (microsecond granularity), the number of millisecond sample
blocks, and the round-trip timing data taken just before and just after
sampling. -/
structure DeviceCaptureResult where
  dueStartTimeUsecs : ℚ
  dueFinishTimeUsecs : ℚ
  nMilliBlocks : ℕ
  timeDataPre : TimeData
  timeDataPost : TimeData
deriving Repr, DecidableEq, BEq

/-- Environment for one `capture()` call: the clock readings that the n-th
`snapShot` call would observe, the result of the arduino round trip, and the
raw bytes delivered by `arduino.bulkTransfer`. -/
structure CaptureEnv where
  obs : ℕ → SyncClockObs
  deviceCapture : DeviceCaptureResult
  bulkSamples : List ℕ

/-- Observable events of a `capture()` call, used to record that the pre
correlation snapshot happens before the device round trip and bulk transfer
and the post snapshot after them.  `snapshot n` is the n-th `snapShot` call. -/
inductive CaptureEvent where
  | snapshot (callIndex : ℕ)
  | deviceCapture
  | bulkTransfer
deriving Repr, DecidableEq, BEq

/-- The fixed pin-name-to-arduino-channel map
`{"LIGHT_0": 0, "AUDIO_0": 1, "LIGHT_1": 2, "AUDIO_1": 3}`; `none` models a
`KeyError` on lookup of any other name. -/
def pinMap (pinName : String) : Option ℕ :=
  if pinName = "LIGHT_0" then some 0
  else if pinName = "AUDIO_0" then some 1
  else if pinName = "LIGHT_1" then some 2
  else if pinName = "AUDIO_1" then some 3
  else none

/-- The four recognised pin identifiers. -/
def validPinNames : List String := [ "LIGHT_0", "AUDIO_0", "LIGHT_1", "AUDIO_1"]

/-- `isAudio` from `measurer.py`: `False` for the two light pins, `True` for
the two audio pins, `ValueError` for anything else. -/
def isAudio (pinName : String) : Except PyError Bool :=
  if pinName = "LIGHT_0" ∨ pinName = "LIGHT_1" then Except.ok false
  else if pinName = "AUDIO_0" ∨ pinName = "AUDIO_1" then Except.ok true
  else Except.error (PyError.valueError ( "Unrecognised pin identifier: " ++ pinName))

/-- The boolean modality of a valid pin name (used to state what `isAudio`
returns for the four recognised identifiers). -/
def audioFlag (pinName : String) : Bool :=
  pinName == "AUDIO_0" || pinName == "AUDIO_1"

/-- The freshly created channel dict for a pin in `repackageSamples`:
`{"pinName": pinName, "isAudio": isAudio(pinName), "min": [], "max": []}`. -/
def freshChannel (pinName : String) : RawChannel :=
  { pinName := pinName, isAudio := audioFlag pinName, max := [], min := [], eventDuration := none }

/-- First loop of `repackageSamples`: place a fresh channel dict at
`channels[pinMap[pinName]]` for each pin to measure, starting from
`[None, None, None, None]`.  An unrecognised name raises (the dict
construction calls `isAudio`, raising `ValueError`; the index lookup raises
`KeyError`). -/
def initChannelsGo (channels : List (Option RawChannel)) :
    List String → Except PyError (List (Option RawChannel))
  | [] => Except.ok channels
  | pinName :: rest =>
    match isAudio pinName with
    | Except.error e => Except.error e
    | Except.ok b =>
      match pinMap pinName with
      | some idx =>
        initChannelsGo
          (channels.set idx (some { pinName := pinName, isAudio := b, max := [], min := [], eventDuration := none }))
          rest
      | none => Except.error (PyError.keyError pinName)

/-- The channel array after the first loop of `repackageSamples`. -/
def initChannels (pinsToMeasure : List String) : Except PyError (List (Option RawChannel)) :=
  initChannelsGo [none, none, none, none] pinsToMeasure

/-- Inner loop body of `repackageSamples` for one millisecond block: walk the
4-slot channel array in device channel order and, for each populated slot,
consume two bytes of the sample buffer at the running index `i` (`max` first,
then `min`).  Reading past the end of the buffer raises `IndexError`. -/
def consumeBlock (samples : List ℕ) :
    List (Option RawChannel) → ℕ → Except PyError (List (Option RawChannel) × ℕ)
  | [], i => Except.ok ([], i)
  | none :: rest, i =>
    match consumeBlock samples rest i with
    | Except.ok (rest2, i2) => Except.ok (none :: rest2, i2)
    | Except.error e => Except.error e
  | some channel :: rest, i =>
    match samples[i]?, samples[i + 1]? with
    | some hi, some lo =>
      match consumeBlock samples rest (i + 2) with
      | Except.ok (rest2, i2) =>
        Except.ok (some { channel with max := channel.max ++ [hi], min := channel.min ++ [lo] } :: rest2, i2)
      | Except.error e => Except.error e
    | _, _ => Except.error (PyError.indexError "string index out of range")

/-- Outer loop of `repackageSamples`: repeat `consumeBlock` once per
millisecond block (`for blk in range(0, nMilliBlocks)`), threading the channel
array and the running byte index. -/
def consumeBlocks (samples : List ℕ) :
    List (Option RawChannel) → ℕ → ℕ → Except PyError (List (Option RawChannel) × ℕ)
  | channels, i, 0 => Except.ok (channels, i)
  | channels, i, n + 1 =>
    match consumeBlock samples channels i with
    | Except.ok (channels2, i2) => consumeBlocks samples channels2 i2 n
    | Except.error e => Except.error e

/-- `repackageSamples` from `measurer.py`: build the 4-slot channel array for
the pins to measure, then interleave-read `nMilliBlocks` blocks of two bytes
per active pin (max then min) out of the flat sample buffer. -/
def repackageSamples (pinsToMeasure : List String) (nMilliBlocks : ℕ) (samples : List ℕ) :
    Except PyError (List (Option RawChannel)) :=
  match initChannels pinsToMeasure with
  | Except.error e => Except.error e
  | Except.ok channels =>
    match consumeBlocks samples channels 0 nMilliBlocks with
    | Except.ok (channels2, _) => Except.ok channels2
    | Except.error e => Except.error e

/-- The state of a `Measurer` session.  Attributes that Python creates only
later (`self.channels`, `self.dueStartTimeUsecs`, `self.dueFinishTimeUsecs`,
`self.wcAcReqResp`, `self.wcSyncTimeCorrelations`, `self.testPackage`) are
optional and start absent.  `timestampedReceivedControlTimeStamps` is the
client-role correlation log (created by `setSyncTimeLinelockController` in the
source; modelled as starting empty). -/
structure Measurer where
  role : String
  pinsToMeasure : List String
  expectedTimings : List (String × List ℚ)
  eventDurations : List (String × ℚ)
  videoStartTicks : ℚ
  syncClockTickRate : ℚ
  wcPrecisionNanos : ℚ
  acPrecisionNanos : ℚ
  nActivePins : ℕ
  timestampedReceivedControlTimeStamps : List CorrelationQ
  wcSyncTimeCorrelations : Option (List CorrelationQ)
  channels : Option (List (Option RawChannel))
  dueStartTimeUsecs : Option ℚ
  dueFinishTimeUsecs : Option ℚ
  wcAcReqResp : Option (TimeData × TimeData)
  testPackage : Option (List ComparisonChannel)
deriving Repr, DecidableEq, BEq

/-- The pin activation loop of `Measurer.__init__`
(`activatePinReading`): looks up `self.pinMap[pin]` for each requested pin,
raising `KeyError` for an unrecognised name. -/
def activatePinReading : List String → Except PyError Unit
  | [] => Except.ok ()
  | pin :: rest =>
    match pinMap pin with
    | some _ => activatePinReading rest
    | none => Except.error (PyError.keyError pin)

/-- `Measurer.__init__`: store the construction inputs, activate the requested
pins, ask the device to prepare (the device-reported active pin count is the
parameter `deviceReportedActivePins`), and raise `ValueError` if that count
differs from the number of requested pins. -/
def measurerInit (role : String) (pinsToMeasure : List String)
    (expectedTimings : List (String × List ℚ)) (eventDurations : List (String × ℚ))
    (videoStartTicks syncTimelineTickRate wcPrecisionNanos acPrecisionNanos : ℚ)
    (deviceReportedActivePins : ℕ) : Except PyError Measurer :=
  match activatePinReading pinsToMeasure with
  | Except.error e => Except.error e
  | Except.ok _ =>
    if deviceReportedActivePins ≠ pinsToMeasure.length then
      Except.error (PyError.valueError "# activated pins mismatches request: ")
    else
      Except.ok
        { role := role, pinsToMeasure := pinsToMeasure, expectedTimings := expectedTimings,
          eventDurations := eventDurations, videoStartTicks := videoStartTicks,
          syncClockTickRate := syncTimelineTickRate, wcPrecisionNanos := wcPrecisionNanos,
          acPrecisionNanos := acPrecisionNanos, nActivePins := deviceReportedActivePins,
          timestampedReceivedControlTimeStamps := [],
          wcSyncTimeCorrelations := none, channels := none,
          dueStartTimeUsecs := none, dueFinishTimeUsecs := none,
          wcAcReqResp := none, testPackage := none }

/-- `Measurer.snapShot`: read the sync timeline clock, convert that reading to
wall clock ticks, read the speed, and return
`(whenSnapshotted, (wcNow, syncTimeNow, speed))` with
`whenSnapshotted = wcNow`. -/
def snapShot (o : SyncClockObs) : CorrelationQ :=
  (o.wallTicksOfSync, (o.wallTicksOfSync, o.syncTicks, o.speed))

/-- `Measurer.ctsRecorder`: append one tuple
`(whenReceived, (rcvdWallClock, rcvdSyncTimeLineClockValue, speedMultiplier))`
to the list of timestamped received control timestamps. -/
def Measurer.ctsRecorder (st : Measurer) (whenReceived : ℚ) (cts : ControlTimestamp) : Measurer :=
  { st with
      timestampedReceivedControlTimeStamps :=
        st.timestampedReceivedControlTimeStamps ++
          [(whenReceived, (cts.wallClockTime, cts.contentTime, cts.timelineSpeedMultiplier))] }

/-- `Measurer.setSyncTimeLinelockController`: remember the clock controller
(external wiring, not part of the state model) and initialise the list that
captures reported correlations, i.e. reset it to `[]`. -/
def Measurer.setSyncTimeLinelockController (st : Measurer) : Measurer :=
  { st with timestampedReceivedControlTimeStamps := [] }

/-- `captureAndPackageIntoChannels`: run the arduino capture, bulk-transfer the
raw bytes and repackage them, returning the channels together with the due
start and finish times and the pre and post round-trip timing data. -/
def captureAndPackageIntoChannels (env : CaptureEnv) (pinsToMeasure : List String) :
    Except PyError (List (Option RawChannel) × ℚ × ℚ × TimeData × TimeData) :=
  match repackageSamples pinsToMeasure env.deviceCapture.nMilliBlocks env.bulkSamples with
  | Except.error e => Except.error e
  | Except.ok channels =>
    Except.ok (channels, env.deviceCapture.dueStartTimeUsecs, env.deviceCapture.dueFinishTimeUsecs,
      env.deviceCapture.timeDataPre, env.deviceCapture.timeDataPost)

/-- `Measurer.capture`: when at least one pin is active, run the device round
trip and bulk transfer and store channels, due start and finish times and the
pre and post round-trip timing samples; in role master additionally take one
correlation snapshot before and one after the round trip and store
`[correlationPre, correlationPost]`; in role client store the list of
correlations received so far.  The returned event list records the call order
(the source checks `role == "master"` once before and once after the round
trip; the two checks are merged into one branch here).  With no active pins
the body does nothing. -/
def Measurer.capture (st : Measurer) (env : CaptureEnv) :
    Except PyError (Measurer × List CaptureEvent) :=
  if st.nActivePins > 0 then
    if st.role = "master" then
      let correlationPre := snapShot (env.obs 0)
      match captureAndPackageIntoChannels env st.pinsToMeasure with
      | Except.error e => Except.error e
      | Except.ok (channels, dueStart, dueFinish, timeDataPre, timeDataPost) =>
        let correlationPost := snapShot (env.obs 1)
        Except.ok
          ({ st with
              channels := some channels,
              dueStartTimeUsecs := some dueStart, dueFinishTimeUsecs := some dueFinish,
              wcAcReqResp := some (timeDataPre, timeDataPost),
              wcSyncTimeCorrelations := some [correlationPre, correlationPost] },
           [CaptureEvent.snapshot 0, CaptureEvent.deviceCapture, CaptureEvent.bulkTransfer,
            CaptureEvent.snapshot 1])
    else
      match captureAndPackageIntoChannels env st.pinsToMeasure with
      | Except.error e => Except.error e
      | Except.ok (channels, dueStart, dueFinish, timeDataPre, timeDataPost) =>
        let st1 :=
          { st with
              channels := some channels,
              dueStartTimeUsecs := some dueStart, dueFinishTimeUsecs := some dueFinish,
              wcAcReqResp := some (timeDataPre, timeDataPost) }
        if st.role = "client" then
          Except.ok
            ({ st1 with wcSyncTimeCorrelations := some st.timestampedReceivedControlTimeStamps },
             [CaptureEvent.deviceCapture, CaptureEvent.bulkTransfer])
        else
          Except.ok (st1, [CaptureEvent.deviceCapture, CaptureEvent.bulkTransfer])
  else Except.ok (st, [])

/-- The first loop of `detectBeepsAndFlashes`:
`self.channels[self.pinMap[pinName]]["eventDuration"] = self.eventDurations[pinName]`
for each key of the event durations dict, in iteration order.  An unrecognised
key raises `KeyError` on the pin map lookup; a key whose channel slot is
`None` raises `TypeError` (subscript assignment on `None`). -/
def attachDurations : List (String × ℚ) → List (Option RawChannel) →
    Except PyError (List (Option RawChannel))
  | [], channels => Except.ok channels
  | (pinName, dur) :: rest, channels =>
    match pinMap pinName with
    | none => Except.error (PyError.keyError pinName)
    | some idx =>
      match channels[idx]? with
      | some (some c) => attachDurations rest (channels.set idx (some { c with eventDuration := some dur }))
      | some none => Except.error (PyError.typeError "NoneType object does not support item assignment")
      | none => Except.error (PyError.indexError "list index out of range")

/-- The constructor arguments of `detect.BeepFlashDetector` as passed by
`detectBeepsAndFlashes` (the detector itself lives in `detect.py`, an
external collaborator). -/
structure BeepFlashDetector where
  wcAcReqResp : Option (TimeData × TimeData)
  syncClockTickRate : ℚ
  wcSyncTimeCorrelations : Option (List CorrelationQ)
  dispersionFunc : ℚ → ℚ
  wcPrecisionNanos : ℚ
  acPrecisionNanos : ℚ

/-- One entry of the result of `analyse.runDetection`: a dict with the pin
name and the observed event times. -/
structure DetectionResult where
  pinName : String
  observed : List ℚ
deriving Repr, DecidableEq, BEq

/-- Python dict lookup on an association list (first matching key). -/
def lookupStr (m : List (String × α)) (k : String) : Option α :=
  (m.find? (fun kv => kv.1 == k)).map Prod.snd

/-- The final loop of `detectBeepsAndFlashes`: package each detection result
with the expected timings for its pin
(`self.expectedTimings[pinName]`, raising `KeyError` when absent). -/
def buildTestPackage (expectedTimings : List (String × List ℚ)) :
    List DetectionResult → Except PyError (List ComparisonChannel)
  | [] => Except.ok []
  | r :: rest =>
    match lookupStr expectedTimings r.pinName with
    | none => Except.error (PyError.keyError r.pinName)
    | some exp =>
      match buildTestPackage expectedTimings rest with
      | Except.ok tail =>
        Except.ok ({ pinName := r.pinName, observed := r.observed, expected := exp } :: tail)
      | Except.error e => Except.error e

/-- `Measurer.detectBeepsAndFlashes`: attach the event duration hints to the
channels, drop the `None` slots, run the external detection process
(`analyse.runDetection` over a `detect.BeepFlashDetector`, modelled by the
function parameter `runDetection`), and store the test package. -/
def Measurer.detectBeepsAndFlashes (st : Measurer)
    (runDetection : BeepFlashDetector → List RawChannel → Option ℚ → Option ℚ → List DetectionResult)
    (dispersionFunc : ℚ → ℚ) : Except PyError Measurer :=
  match st.channels with
  | none => Except.error (PyError.attributeError "channels")
  | some channels =>
    match attachDurations st.eventDurations channels with
    | Except.error e => Except.error e
    | Except.ok channels2 =>
      let measuredChannels := channels2.filterMap (fun c => c)
      let detector : BeepFlashDetector :=
        { wcAcReqResp := st.wcAcReqResp, syncClockTickRate := st.syncClockTickRate,
          wcSyncTimeCorrelations := st.wcSyncTimeCorrelations, dispersionFunc := dispersionFunc,
          wcPrecisionNanos := st.wcPrecisionNanos, acPrecisionNanos := st.acPrecisionNanos }
      let observedTimings := runDetection detector measuredChannels st.dueStartTimeUsecs st.dueFinishTimeUsecs
      match buildTestPackage st.expectedTimings observedTimings with
      | Except.error e => Except.error e
      | Except.ok testPackage =>
        Except.ok { st with channels := some channels2, testPackage := some testPackage }

/-- `Measurer.doComparison`: raise `DubiousInput` when the observed list is
longer than the expected list or empty; otherwise run the external comparison
backend (`analyse.doComparison`, modelled by the parameter) and convert its
expected times and (difference, error bound) pairs to seconds by exact
division by the sync clock tick rate, leaving the match index unchanged. -/
def doComparison (analyseDoComparison : (List ℚ × List ℚ) → ℚ → ℚ → ℕ × List ℚ × List (ℚ × ℚ))
    (st : Measurer) (channel : ComparisonChannel) : Except PyError (ℕ × List ℚ × List (ℚ × ℚ)) :=
  if ((channel.observed.length : ℤ) - (channel.expected.length : ℤ) > 0) ∨ channel.observed.length = 0 then
    Except.error (PyError.dubiousInput "poor data or no data")
  else
    match analyseDoComparison (channel.observed, channel.expected) st.videoStartTicks st.syncClockTickRate with
    | (matchIndex, expected, diffsAndErrors) =>
      let expectedSecs := expected.map (fun e => (e - st.videoStartTicks) / st.syncClockTickRate)
      let diffsAndErrorsSecs :=
        diffsAndErrors.map (fun de => (de.1 / st.syncClockTickRate, de.2 / st.syncClockTickRate))
      Except.ok (matchIndex, expectedSecs, diffsAndErrorsSecs)

/-- The operations a constructed session exposes that can touch the
client-role correlation log: the tracker callback `ctsRecorder` (invoked with
the wall clock reading and the controller's latest control timestamp),
`setSyncTimeLinelockController`, and `capture`. -/
inductive SessionOp where
  | recordCts (whenReceived : ℚ) (cts : ControlTimestamp)
  | setController
  | runCapture (env : CaptureEnv)

/-- Whether a session operation is `setSyncTimeLinelockController`. -/
def SessionOp.isSetController : SessionOp → Bool
  | SessionOp.setController => true
  | _ => false

/-- Apply one session operation to the session state. -/
def applyOp (op : SessionOp) (st : Measurer) : Except PyError Measurer :=
  match op with
  | SessionOp.recordCts w c => Except.ok (st.ctsRecorder w c)
  | SessionOp.setController => Except.ok st.setSyncTimeLinelockController
  | SessionOp.runCapture env =>
    match st.capture env with
    | Except.ok (st2, _) => Except.ok st2
    | Except.error e => Except.error e

/-- Apply a sequence of session operations in order. -/
def applyOps : List SessionOp → Measurer → Except PyError Measurer
  | [], st => Except.ok st
  | op :: rest, st =>
    match applyOp op st with
    | Except.ok st2 => applyOps rest st2
    | Except.error e => Except.error e

/-- The correlation entries contributed by the `ctsRecorder` invocations of an
operation sequence, in order. -/
def recordedEntries : List SessionOp → List CorrelationQ
  | [] => []
  | SessionOp.recordCts w c :: rest =>
    (w, (c.wallClockTime, c.contentTime, c.timelineSpeedMultiplier)) :: recordedEntries rest
  | _ :: rest => recordedEntries rest

/-- Whether device channel slot `j` is the slot of one of the pins to measure
(i.e. the slot is populated after the first loop of `repackageSamples`). -/
def slotActive (pins : List String) (j : ℕ) : Bool :=
  pins.any (fun p => pinMap p == some j)

/-- Claim-side buffer builder, one sample interval: per active pin in device
channel order, one (max, min) byte pair. -/
def interleavedBlockAux (pins : List String) (maxVals minVals : ℕ → ℕ → ℕ) (blk : ℕ) :
    List ℕ → List ℕ
  | [] => []
  | j :: js =>
    (if slotActive pins j then [maxVals j blk, minVals j blk] else []) ++
      interleavedBlockAux pins maxVals minVals blk js

/-- Claim-side buffer builder, one sample interval over the four device
channel slots. -/
def interleavedBlock (pins : List String) (maxVals minVals : ℕ → ℕ → ℕ) (blk : ℕ) : List ℕ :=
  interleavedBlockAux pins maxVals minVals blk [0, 1, 2, 3]

/-- Claim-side buffer builder: interleave, per sample interval and per active
pin in device channel order, one (max, min) byte pair per pin, where the
synthetic max and min values of slot `j` at interval `blk` are
`maxVals j blk` and `minVals j blk`. -/
def interleavedBuffer (pins : List String) (maxVals minVals : ℕ → ℕ → ℕ) : ℕ → List ℕ
  | 0 => []
  | n + 1 =>
    interleavedBuffer pins maxVals minVals n ++ interleavedBlock pins maxVals minVals n

/-- The bytes one `consumeBlock` pass reads for interval `blk` from a channel
array, described against the array's shape (`slot` is the device channel
index of the list head). -/
def blockBytesAux (maxVals minVals : ℕ → ℕ → ℕ) (blk : ℕ) :
    ℕ → List (Option RawChannel) → List ℕ
  | _, [] => []
  | slot, none :: rest => blockBytesAux maxVals minVals blk (slot + 1) rest
  | slot, some _ :: rest =>
    maxVals slot blk :: minVals slot blk :: blockBytesAux maxVals minVals blk (slot + 1) rest

/-- The channel array after one `consumeBlock` pass for interval `blk`:
each populated slot gains one max and one min sample. -/
def appendBlockAux (maxVals minVals : ℕ → ℕ → ℕ) (blk : ℕ) :
    ℕ → List (Option RawChannel) → List (Option RawChannel)
  | _, [] => []
  | slot, none :: rest => none :: appendBlockAux maxVals minVals blk (slot + 1) rest
  | slot, some c :: rest =>
    some { c with max := c.max ++ [maxVals slot blk], min := c.min ++ [minVals slot blk] } ::
      appendBlockAux maxVals minVals blk (slot + 1) rest

/-- The channel array after `n` `consumeBlock` passes for the intervals
`start, start + 1, ...`. -/
def appendBlocksAux (maxVals minVals : ℕ → ℕ → ℕ) : ℕ → ℕ → List (Option RawChannel) →
    List (Option RawChannel)
  | _, 0, chs => chs
  | start, n + 1, chs =>
    appendBlocksAux maxVals minVals (start + 1) n (appendBlockAux maxVals minVals start 0 chs)

/-- The bytes `n` `consumeBlock` passes read for the intervals
`start, start + 1, ...`, described against a fixed channel array shape. -/
def bufferFromAux (maxVals minVals : ℕ → ℕ → ℕ) (chs : List (Option RawChannel)) :
    ℕ → ℕ → List ℕ
  | _, 0 => []
  | start, n + 1 =>
    blockBytesAux maxVals minVals start 0 chs ++ bufferFromAux maxVals minVals chs (start + 1) n

/-- Closed form of the effect of `n` consume passes on one channel slot. -/
def extendOne (maxVals minVals : ℕ → ℕ → ℕ) (start n slot : ℕ) :
    Option RawChannel → Option RawChannel
  | none => none
  | some c =>
    some { c with
            max := c.max ++ (List.range' start n).map (fun blk => maxVals slot blk),
            min := c.min ++ (List.range' start n).map (fun blk => minVals slot blk) }

/-- Closed form of the effect of `n` consume passes on a channel array. -/
def extendChannels (maxVals minVals : ℕ → ℕ → ℕ) (start n : ℕ) :
    ℕ → List (Option RawChannel) → List (Option RawChannel)
  | _, [] => []
  | slot, x :: rest =>
    extendOne maxVals minVals start n slot x :: extendChannels maxVals minVals start n (slot + 1) rest

/-- The slot content produced by the first loop of `repackageSamples` for
device channel `j`, with default `dflt` when no measured pin maps to `j`. -/
def slotViewD (pins : List String) (j : ℕ) (dflt : Option RawChannel) : Option RawChannel :=
  match pins.find? (fun p => pinMap p == some j) with
  | some p => some (freshChannel p)
  | none => dflt

/-- The slot content produced by the first loop of `repackageSamples` for
device channel `j` (empty slots are `none`). -/
def slotView (pins : List String) (j : ℕ) : Option RawChannel :=
  slotViewD pins j none

/-- Number of populated slots of a channel array (the device's active pin
count as seen by the byte-consuming loop). -/
def countActive : List (Option RawChannel) → ℕ
  | [] => 0
  | none :: rest => countActive rest
  | some _ :: rest => countActive rest + 1

def exEnv0 : CaptureEnv :=
  { obs := fun _ => { syncTicks := 5, wallTicksOfSync := 7, speed := 1 },
    deviceCapture :=
      { dueStartTimeUsecs := 100, dueFinishTimeUsecs := 200, nMilliBlocks := 0,
        timeDataPre := [1], timeDataPost := [2] },
    bulkSamples := [] }

def exMasterEmpty : Measurer :=
  { role := "master", pinsToMeasure := [], expectedTimings := [], eventDurations := [],
    videoStartTicks := 0, syncClockTickRate := 1, wcPrecisionNanos := 0, acPrecisionNanos := 0,
    nActivePins := 0, timestampedReceivedControlTimeStamps := [],
    wcSyncTimeCorrelations := none, channels := none,
    dueStartTimeUsecs := none, dueFinishTimeUsecs := none,
    wcAcReqResp := none, testPackage := none }

def exClientEmpty : Measurer := { exMasterEmpty with role := "client" }

def exEnv1 : CaptureEnv :=
  { obs := fun n => { syncTicks := (n : ℚ), wallTicksOfSync := (n : ℚ) + 10, speed := 1 },
    deviceCapture :=
      { dueStartTimeUsecs := 100, dueFinishTimeUsecs := 200, nMilliBlocks := 1,
        timeDataPre := [1, 2], timeDataPost := [3, 4] },
    bulkSamples := [5, 3] }

def exChs1 : List (Option RawChannel) :=
  [some { pinName := "LIGHT_0", isAudio := false, max := [5], min := [3],
          eventDuration := none },
   none, none, none]

def exMaster1 : Measurer :=
  { exMasterEmpty with
      role := "master", pinsToMeasure := [ "LIGHT_0"],
      expectedTimings := [( "LIGHT_0", [1, 2])], eventDurations := [( "LIGHT_0", 1 / 1000)],
      syncClockTickRate := 50, nActivePins := 1 }

def exClient1 : Measurer :=
  { exMaster1 with
      role := "client", timestampedReceivedControlTimeStamps := [(1, (2, 3, 1))] }

def exDetect1 : Measurer := { exMaster1 with channels := some exChs1 }

def exInitChs : List (Option RawChannel) := [some (freshChannel "LIGHT_0"), none, none, none]

def exMaxVals (j blk : ℕ) : ℕ := j + blk + 7

def exMinVals (_j blk : ℕ) : ℕ := blk


theorem pinMap_valid {p : String} {j : ℕ} (h : pinMap p = some j) : p ∈ validPinNames := by
  unfold pinMap at h
  split_ifs at h <;> simp_all [validPinNames]

theorem pinMap_lt4 {p : String} {j : ℕ} (h : pinMap p = some j) : j < 4 := by
  unfold pinMap at h
  split_ifs at h <;> simp_all <;> omega

theorem pinMap_inj {p q : String} {j : ℕ} (hp : pinMap p = some j) (hq : pinMap q = some j) :
    p = q := by
  unfold pinMap at hp hq
  split_ifs at hp hq <;> simp_all <;> omega

theorem valid_cases {p : String} (h : p ∈ validPinNames) :
    p = "LIGHT_0" ∨ p = "AUDIO_0" ∨ p = "LIGHT_1" ∨ p = "AUDIO_1" := by
  simpa [validPinNames] using h

theorem isAudio_valid {p : String} (h : p ∈ validPinNames) :
    isAudio p = Except.ok (audioFlag p) := by
  rcases valid_cases h with rfl | rfl | rfl | rfl <;> rfl

theorem activatePinReading_valid {pins : List String}
    (h : ∀ p ∈ pins, p ∈ validPinNames) : activatePinReading pins = Except.ok () := by
  induction pins with
  | nil => rfl
  | cons p rest ih =>
    have hp := h p (by simp)
    have hrest := ih (fun q hq => h q (by simp [hq]))
    rcases valid_cases hp with rfl | rfl | rfl | rfl <;>
      simpa [activatePinReading, pinMap] using hrest

theorem slotView_isSome (pins : List String) (j : ℕ) :
    (slotView pins j).isSome = slotActive pins j := by
  unfold slotView slotViewD slotActive
  cases h : pins.find? (fun p => pinMap p == some j) with
  | none =>
    rw [List.find?_eq_none] at h
    simp only [Option.isSome_none]
    symm
    rw [List.any_eq_false]
    exact h
  | some q =>
    simp only [Option.isSome_some]
    symm
    rw [List.any_eq_true]
    refine ⟨q, List.mem_of_find?_eq_some h, ?_⟩
    simpa using List.find?_some h

theorem slotViewD_cons_hit {p : String} {jp : ℕ} (rest : List String)
    (_hval : ∀ q ∈ rest, q ∈ validPinNames) (hp : pinMap p = some jp) (v : Option RawChannel) :
    slotViewD (p :: rest) jp v = slotViewD rest jp (some (freshChannel p)) := by
  unfold slotViewD
  rw [List.find?_cons_of_pos _ (by simp [hp])]
  cases h : rest.find? (fun q => pinMap q == some jp) with
  | none => rfl
  | some q =>
    have hq : pinMap q = some jp := by simpa using List.find?_some h
    rw [pinMap_inj hq hp]

theorem slotViewD_cons_miss {p : String} {k : ℕ} {rest : List String}
    (hp : ¬ pinMap p = some k) (v : Option RawChannel) :
    slotViewD (p :: rest) k v = slotViewD rest k v := by
  unfold slotViewD
  rw [List.find?_cons_of_neg _ (by simp [hp])]

theorem initChannelsGo_spec :
    ∀ (pins : List String), (∀ p ∈ pins, p ∈ validPinNames) →
    ∀ v0 v1 v2 v3 : Option RawChannel,
      initChannelsGo [v0, v1, v2, v3] pins =
        Except.ok [slotViewD pins 0 v0, slotViewD pins 1 v1, slotViewD pins 2 v2,
          slotViewD pins 3 v3] := by
  intro pins
  induction pins with
  | nil => intro hval v0 v1 v2 v3; simp [initChannelsGo, slotViewD, List.find?]
  | cons p rest ih =>
    intro hval v0 v1 v2 v3
    have hp := hval p (by simp)
    have hvr : ∀ q ∈ rest, q ∈ validPinNames := fun q hq => hval q (by simp [hq])
    rcases valid_cases hp with rfl | rfl | rfl | rfl
    · rw [show initChannelsGo [v0, v1, v2, v3] ( "LIGHT_0" :: rest) =
          initChannelsGo [some (freshChannel "LIGHT_0"), v1, v2, v3] rest from rfl,
        ih hvr,
        slotViewD_cons_hit rest hvr (by rfl) v0,
        slotViewD_cons_miss (by decide) v1,
        slotViewD_cons_miss (by decide) v2,
        slotViewD_cons_miss (by decide) v3]
    · rw [show initChannelsGo [v0, v1, v2, v3] ( "AUDIO_0" :: rest) =
          initChannelsGo [v0, some (freshChannel "AUDIO_0"), v2, v3] rest from rfl,
        ih hvr,
        slotViewD_cons_miss (by decide) v0,
        slotViewD_cons_hit rest hvr (by rfl) v1,
        slotViewD_cons_miss (by decide) v2,
        slotViewD_cons_miss (by decide) v3]
    · rw [show initChannelsGo [v0, v1, v2, v3] ( "LIGHT_1" :: rest) =
          initChannelsGo [v0, v1, some (freshChannel "LIGHT_1"), v3] rest from rfl,
        ih hvr,
        slotViewD_cons_miss (by decide) v0,
        slotViewD_cons_miss (by decide) v1,
        slotViewD_cons_hit rest hvr (by rfl) v2,
        slotViewD_cons_miss (by decide) v3]
    · rw [show initChannelsGo [v0, v1, v2, v3] ( "AUDIO_1" :: rest) =
          initChannelsGo [v0, v1, v2, some (freshChannel "AUDIO_1")] rest from rfl,
        ih hvr,
        slotViewD_cons_miss (by decide) v0,
        slotViewD_cons_miss (by decide) v1,
        slotViewD_cons_miss (by decide) v2,
        slotViewD_cons_hit rest hvr (by rfl) v3]

theorem initChannels_spec (pins : List String) (hval : ∀ p ∈ pins, p ∈ validPinNames) :
    initChannels pins =
      Except.ok [slotView pins 0, slotView pins 1, slotView pins 2, slotView pins 3] :=
  initChannelsGo_spec pins hval none none none none

theorem getElem?_append_length (pre : List ℕ) (x : ℕ) (suf : List ℕ) :
    (pre ++ x :: suf)[pre.length]? = some x := by
  rw [List.getElem?_append_right (Nat.le_refl _)]
  simp

theorem consumeBlock_spec (maxVals minVals : ℕ → ℕ → ℕ) (blk : ℕ) :
    ∀ (chs : List (Option RawChannel)) (slot : ℕ) (pre rest : List ℕ),
      consumeBlock (pre ++ blockBytesAux maxVals minVals blk slot chs ++ rest) chs pre.length =
        Except.ok (appendBlockAux maxVals minVals blk slot chs,
          pre.length + (blockBytesAux maxVals minVals blk slot chs).length) := by
  intro chs
  induction chs with
  | nil => intro slot pre rest; simp [consumeBlock, blockBytesAux, appendBlockAux]
  | cons x t ih =>
    intro slot pre rest
    cases x with
    | none =>
      simp only [blockBytesAux, appendBlockAux, consumeBlock, ih (slot + 1) pre rest]
    | some c =>
      have hsamp : pre ++ blockBytesAux maxVals minVals blk slot (some c :: t) ++ rest =
          pre ++ maxVals slot blk :: minVals slot blk ::
            (blockBytesAux maxVals minVals blk (slot + 1) t ++ rest) := by
        simp [blockBytesAux]
      rw [hsamp]
      have e1 : (pre ++ maxVals slot blk :: minVals slot blk ::
          (blockBytesAux maxVals minVals blk (slot + 1) t ++ rest))[pre.length]? =
          some (maxVals slot blk) := getElem?_append_length pre _ _
      have hl2 : pre ++ maxVals slot blk :: minVals slot blk ::
          (blockBytesAux maxVals minVals blk (slot + 1) t ++ rest) =
          (pre ++ [maxVals slot blk]) ++ minVals slot blk ::
            (blockBytesAux maxVals minVals blk (slot + 1) t ++ rest) := by simp
      have e2 : (pre ++ maxVals slot blk :: minVals slot blk ::
          (blockBytesAux maxVals minVals blk (slot + 1) t ++ rest))[pre.length + 1]? =
          some (minVals slot blk) := by
        rw [hl2]
        have := getElem?_append_length (pre ++ [maxVals slot blk]) (minVals slot blk)
          (blockBytesAux maxVals minVals blk (slot + 1) t ++ rest)
        simpa using this
      have hl3 : (pre ++ [maxVals slot blk, minVals slot blk]) ++
          (blockBytesAux maxVals minVals blk (slot + 1) t ++ rest) =
          pre ++ maxVals slot blk :: minVals slot blk ::
            (blockBytesAux maxVals minVals blk (slot + 1) t ++ rest) := by simp
      have ihh := ih (slot + 1) (pre ++ [maxVals slot blk, minVals slot blk]) rest
      rw [List.append_assoc, hl3] at ihh
      have hlen : (pre ++ [maxVals slot blk, minVals slot blk]).length = pre.length + 2 := by
        simp
      rw [hlen] at ihh
      simp only [consumeBlock, e1, e2, ihh]
      simp only [appendBlockAux, blockBytesAux, List.length_cons]
      refine congrArg Except.ok ?_
      refine Prod.ext rfl ?_
      simp
      omega

theorem blockBytesAux_appendBlockAux (maxVals minVals : ℕ → ℕ → ℕ) (blk blkB : ℕ) :
    ∀ (chs : List (Option RawChannel)) (slot slotB : ℕ),
      blockBytesAux maxVals minVals blk slot (appendBlockAux maxVals minVals blkB slotB chs) =
        blockBytesAux maxVals minVals blk slot chs := by
  intro chs
  induction chs with
  | nil => intro slot slotB; rfl
  | cons x t ih =>
    intro slot slotB
    cases x with
    | none => simp only [appendBlockAux, blockBytesAux, ih]
    | some c => simp only [appendBlockAux, blockBytesAux, ih]

theorem bufferFromAux_appendBlockAux (maxVals minVals : ℕ → ℕ → ℕ) (blkB : ℕ) :
    ∀ (n start : ℕ) (chs : List (Option RawChannel)) (slotB : ℕ),
      bufferFromAux maxVals minVals (appendBlockAux maxVals minVals blkB slotB chs) start n =
        bufferFromAux maxVals minVals chs start n := by
  intro n
  induction n with
  | zero => intro start chs slotB; rfl
  | succ n ih =>
    intro start chs slotB
    simp only [bufferFromAux, blockBytesAux_appendBlockAux, ih]

theorem consumeBlocks_spec (maxVals minVals : ℕ → ℕ → ℕ) :
    ∀ (n start : ℕ) (chs : List (Option RawChannel)) (pre rest : List ℕ),
      consumeBlocks (pre ++ bufferFromAux maxVals minVals chs start n ++ rest) chs pre.length n =
        Except.ok (appendBlocksAux maxVals minVals start n chs,
          pre.length + (bufferFromAux maxVals minVals chs start n).length) := by
  intro n
  induction n with
  | zero => intro start chs pre rest; simp [consumeBlocks, bufferFromAux, appendBlocksAux]
  | succ n ih =>
    intro start chs pre rest
    have hsamp : pre ++ bufferFromAux maxVals minVals chs start (n + 1) ++ rest =
        pre ++ blockBytesAux maxVals minVals start 0 chs ++
          (bufferFromAux maxVals minVals chs (start + 1) n ++ rest) := by
      simp [bufferFromAux]
    rw [hsamp]
    have hblock := consumeBlock_spec maxVals minVals start chs 0 pre
      (bufferFromAux maxVals minVals chs (start + 1) n ++ rest)
    have ihh := ih (start + 1) (appendBlockAux maxVals minVals start 0 chs)
      (pre ++ blockBytesAux maxVals minVals start 0 chs) rest
    rw [bufferFromAux_appendBlockAux] at ihh
    rw [List.append_assoc] at ihh
    have hlen : (pre ++ blockBytesAux maxVals minVals start 0 chs).length =
        pre.length + (blockBytesAux maxVals minVals start 0 chs).length := by simp
    rw [hlen] at ihh
    simp only [consumeBlocks, hblock, ihh, appendBlocksAux]
    refine congrArg Except.ok (Prod.ext rfl ?_)
    simp only [bufferFromAux, List.length_append]
    omega

theorem extendChannels_zero (maxVals minVals : ℕ → ℕ → ℕ) (start : ℕ) :
    ∀ (chs : List (Option RawChannel)) (slot : ℕ),
      extendChannels maxVals minVals start 0 slot chs = chs := by
  intro chs
  induction chs with
  | nil => intro slot; rfl
  | cons x t ih =>
    intro slot
    cases x with
    | none => simp [extendChannels, extendOne, ih]
    | some c => cases c; simp [extendChannels, extendOne, ih, List.range']

theorem extendChannels_step (maxVals minVals : ℕ → ℕ → ℕ) (start n : ℕ) :
    ∀ (chs : List (Option RawChannel)) (slot : ℕ),
      extendChannels maxVals minVals (start + 1) n slot
          (appendBlockAux maxVals minVals start slot chs) =
        extendChannels maxVals minVals start (n + 1) slot chs := by
  intro chs
  induction chs with
  | nil => intro slot; rfl
  | cons x t ih =>
    intro slot
    cases x with
    | none => simp [appendBlockAux, extendChannels, extendOne, ih]
    | some c =>
      cases c
      simp [appendBlockAux, extendChannels, extendOne, ih, List.range'_succ]

theorem appendBlocksAux_extend (maxVals minVals : ℕ → ℕ → ℕ) :
    ∀ (n start : ℕ) (chs : List (Option RawChannel)),
      appendBlocksAux maxVals minVals start n chs =
        extendChannels maxVals minVals start n 0 chs := by
  intro n
  induction n with
  | zero => intro start chs; simp [appendBlocksAux, extendChannels_zero]
  | succ n ih =>
    intro start chs
    simp only [appendBlocksAux]
    rw [ih, extendChannels_step]

theorem extendChannels_getElem (maxVals minVals : ℕ → ℕ → ℕ) (start n : ℕ) :
    ∀ (chs : List (Option RawChannel)) (slot j : ℕ),
      (extendChannels maxVals minVals start n slot chs)[j]? =
        (chs[j]?).map (extendOne maxVals minVals start n (slot + j)) := by
  intro chs
  induction chs with
  | nil => intro slot j; simp [extendChannels]
  | cons x t ih =>
    intro slot j
    cases j with
    | zero => simp [extendChannels]
    | succ j =>
      simp only [extendChannels, List.getElem?_cons_succ, ih]
      have : slot + 1 + j = slot + (j + 1) := by omega
      rw [this]

theorem extendChannels_length (maxVals minVals : ℕ → ℕ → ℕ) (start n : ℕ) :
    ∀ (chs : List (Option RawChannel)) (slot : ℕ),
      (extendChannels maxVals minVals start n slot chs).length = chs.length := by
  intro chs
  induction chs with
  | nil => intro slot; rfl
  | cons x t ih => intro slot; simp [extendChannels, ih]

theorem interleavedBlock_eq_blockBytes (pins : List String)
    (maxVals minVals : ℕ → ℕ → ℕ) (blk : ℕ) :
    interleavedBlock pins maxVals minVals blk =
      blockBytesAux maxVals minVals blk 0
        [slotView pins 0, slotView pins 1, slotView pins 2, slotView pins 3] := by
  have h0 := slotView_isSome pins 0
  have h1 := slotView_isSome pins 1
  have h2 := slotView_isSome pins 2
  have h3 := slotView_isSome pins 3
  cases e0 : slotView pins 0 <;> cases e1 : slotView pins 1 <;>
    cases e2 : slotView pins 2 <;> cases e3 : slotView pins 3 <;>
      rw [e0] at h0 <;> rw [e1] at h1 <;> rw [e2] at h2 <;> rw [e3] at h3 <;>
        simp [interleavedBlock, interleavedBlockAux, blockBytesAux, ← h0, ← h1, ← h2, ← h3]

theorem bufferFromAux_snoc (maxVals minVals : ℕ → ℕ → ℕ) (chs : List (Option RawChannel)) :
    ∀ (n start : ℕ),
      bufferFromAux maxVals minVals chs start (n + 1) =
        bufferFromAux maxVals minVals chs start n ++
          blockBytesAux maxVals minVals (start + n) 0 chs := by
  intro n
  induction n with
  | zero => intro start; simp [bufferFromAux]
  | succ n ih =>
    intro start
    have step : bufferFromAux maxVals minVals chs start (n + 2) =
        blockBytesAux maxVals minVals start 0 chs ++
          bufferFromAux maxVals minVals chs (start + 1) (n + 1) := rfl
    rw [step, ih]
    have harg : start + 1 + n = start + (n + 1) := by omega
    rw [← List.append_assoc, harg]
    rfl

theorem interleavedBuffer_eq (pins : List String) (maxVals minVals : ℕ → ℕ → ℕ) :
    ∀ n : ℕ, interleavedBuffer pins maxVals minVals n =
      bufferFromAux maxVals minVals
        [slotView pins 0, slotView pins 1, slotView pins 2, slotView pins 3] 0 n := by
  intro n
  induction n with
  | zero => rfl
  | succ n ih =>
    have step : interleavedBuffer pins maxVals minVals (n + 1) =
        interleavedBuffer pins maxVals minVals n ++ interleavedBlock pins maxVals minVals n := rfl
    rw [step, ih, interleavedBlock_eq_blockBytes, bufferFromAux_snoc]
    simp

theorem slotView_of_mem {pins : List String} {p : String} {j : ℕ}
    (hmem : p ∈ pins) (hp : pinMap p = some j) :
    slotView pins j = some (freshChannel p) := by
  unfold slotView slotViewD
  cases h : pins.find? (fun q => pinMap q == some j) with
  | none =>
    rw [List.find?_eq_none] at h
    exact absurd (by simp [hp]) (h p hmem)
  | some q =>
    have hq : pinMap q = some j := by simpa using List.find?_some h
    rw [pinMap_inj hq hp]

theorem slotView_of_inactive {pins : List String} {j : ℕ}
    (h : slotActive pins j = false) : slotView pins j = none := by
  have := slotView_isSome pins j
  rw [h] at this
  exact Option.not_isSome_iff_eq_none.mp (by simp [this])

theorem repackageSamples_interleaved (pins : List String)
    (hval : ∀ p ∈ pins, p ∈ validPinNames) (maxVals minVals : ℕ → ℕ → ℕ) (n : ℕ) :
    repackageSamples pins n (interleavedBuffer pins maxVals minVals n) =
      Except.ok (extendChannels maxVals minVals 0 n 0
        [slotView pins 0, slotView pins 1, slotView pins 2, slotView pins 3]) := by
  have hcb := consumeBlocks_spec maxVals minVals n 0
    [slotView pins 0, slotView pins 1, slotView pins 2, slotView pins 3] [] []
  simp only [List.nil_append, List.append_nil, List.length_nil] at hcb
  simp only [repackageSamples, initChannels_spec pins hval,
    interleavedBuffer_eq pins maxVals minVals, hcb, appendBlocksAux_extend]

/-- C3 (confirmed): channel repackaging round-trips.  For every non-empty
list of distinct valid pins, every interval count, and the buffer built by
interleaving one (max, min) byte pair per active pin per sample interval in
device channel order, repackageSamples returns a 4-slot array that is None at
every inactive slot and, at each active pin's slot, a channel whose max and
min sequences equal the synthetic per-pin inputs exactly. -/
theorem c3_channel_repackaging_roundtrip (pins : List String) (maxVals minVals : ℕ → ℕ → ℕ) (n : ℕ)
    (hval : ∀ p ∈ pins, p ∈ validPinNames) (_hnd : pins.Nodup) (_hne : pins ≠ []) :
    ∃ chs, repackageSamples pins n (interleavedBuffer pins maxVals minVals n) = Except.ok chs ∧
      chs.length = 4 ∧
      (∀ j, j < 4 → slotActive pins j = false → chs[j]? = some none) ∧
      (∀ p ∈ pins, ∀ j, pinMap p = some j →
        chs[j]? = some (some
          { pinName := p, isAudio := audioFlag p,
            max := (List.range n).map (fun blk => maxVals j blk),
            min := (List.range n).map (fun blk => minVals j blk),
            eventDuration := none })) := by
  refine ⟨_, repackageSamples_interleaved pins hval maxVals minVals n, ?_, ?_, ?_⟩
  · rw [extendChannels_length]
    rfl
  · intro j hj hina
    rw [extendChannels_getElem]
    have hsv : slotView pins j = none := slotView_of_inactive hina
    interval_cases j <;> simp [hsv, extendOne]
  · intro p hmem j hp
    have hj := pinMap_lt4 hp
    have hsv := slotView_of_mem hmem hp
    have hrange : List.range' 0 n = List.range n := (List.range_eq_range' n).symm
    rw [extendChannels_getElem]
    interval_cases j <;> simp [hsv, extendOne, freshChannel, hrange]


theorem consumeBlock_ok_facts (samples : List ℕ) :
    ∀ (chs : List (Option RawChannel)) (i : ℕ) (res : List (Option RawChannel)) (i2 : ℕ),
      consumeBlock samples chs i = Except.ok (res, i2) →
      i2 = i + 2 * countActive chs ∧ countActive res = countActive chs ∧
        ∀ j : ℕ, (res[j]?).map Option.isSome = (chs[j]?).map Option.isSome := by
  intro chs
  induction chs with
  | nil =>
    intro i res i2 h
    simp only [consumeBlock] at h
    obtain ⟨h1, h2⟩ : ([] : List (Option RawChannel)) = res ∧ i = i2 := by simpa using h
    subst h1
    subst h2
    simp [countActive]
  | cons x t ih =>
    intro i res i2 h
    cases x with
    | none =>
      simp only [consumeBlock] at h
      cases hrec : consumeBlock samples t i with
      | ok pr =>
        obtain ⟨r, i'⟩ := pr
        rw [hrec] at h
        obtain ⟨h1, h2⟩ : none :: r = res ∧ i' = i2 := by simpa using h
        subst h1
        subst h2
        obtain ⟨f1, f2, f3⟩ := ih i r i' hrec
        refine ⟨by simpa [countActive] using f1, by simpa [countActive] using f2, ?_⟩
        intro j
        cases j with
        | zero => simp
        | succ j => simpa using f3 j
      | error e =>
        rw [hrec] at h
        simp at h
    | some c =>
      simp only [consumeBlock] at h
      cases hhi : samples[i]? with
      | none =>
        rw [hhi] at h
        cases hlo : samples[i + 1]? with
        | none => rw [hlo] at h; simp at h
        | some lo => rw [hlo] at h; simp at h
      | some hi =>
        rw [hhi] at h
        cases hlo : samples[i + 1]? with
        | none => rw [hlo] at h; simp at h
        | some lo =>
          rw [hlo] at h
          cases hrec : consumeBlock samples t (i + 2) with
          | ok pr =>
            obtain ⟨r, i'⟩ := pr
            rw [hrec] at h
            obtain ⟨h1, h2⟩ :
                some { c with max := c.max ++ [hi], min := c.min ++ [lo] } :: r = res ∧
                  i' = i2 := by simpa using h
            subst h1
            subst h2
            obtain ⟨f1, f2, f3⟩ := ih (i + 2) r i' hrec
            refine ⟨by simp only [countActive]; omega, by simpa [countActive] using f2, ?_⟩
            intro j
            cases j with
            | zero => simp
            | succ j => simpa using f3 j
          | error e =>
            rw [hrec] at h
            simp at h

theorem consumeBlock_isOk_iff (samples : List ℕ) :
    ∀ (chs : List (Option RawChannel)) (i : ℕ),
      (∃ r, consumeBlock samples chs i = Except.ok r) ↔
        (countActive chs = 0 ∨ i + 2 * countActive chs ≤ samples.length) := by
  intro chs
  induction chs with
  | nil =>
    intro i
    exact iff_of_true ⟨([], i), rfl⟩ (Or.inl rfl)
  | cons x t ih =>
    intro i
    cases x with
    | none =>
      have hstep : (∃ r, consumeBlock samples (none :: t) i = Except.ok r) ↔
          (∃ r, consumeBlock samples t i = Except.ok r) := by
        simp only [consumeBlock]
        cases hrec : consumeBlock samples t i with
        | ok pr => exact iff_of_true ⟨(none :: pr.1, pr.2), rfl⟩ ⟨pr, rfl⟩
        | error e =>
          refine iff_of_false ?_ ?_ <;> rintro ⟨r, hr⟩ <;> simp at hr
      rw [hstep, ih i]
      simp [countActive]
    | some c =>
      cases hhi : samples[i]? with
      | none =>
        have hlen : samples.length ≤ i := List.getElem?_eq_none_iff.mp hhi
        have hnone : ¬ ∃ r, consumeBlock samples (some c :: t) i = Except.ok r := by
          rintro ⟨r, hr⟩
          simp [consumeBlock, hhi] at hr
        refine iff_of_false hnone ?_
        simp only [countActive]
        omega
      | some hi =>
        cases hlo : samples[i + 1]? with
        | none =>
          have hlen : samples.length ≤ i + 1 := List.getElem?_eq_none_iff.mp hlo
          have hnone : ¬ ∃ r, consumeBlock samples (some c :: t) i = Except.ok r := by
            rintro ⟨r, hr⟩
            simp [consumeBlock, hhi, hlo] at hr
          refine iff_of_false hnone ?_
          simp only [countActive]
          omega
        | some lo =>
          have hi1 : i + 1 < samples.length := by
            have := List.getElem?_eq_some_iff.mp hlo
            exact this.1
          have hstep : (∃ r, consumeBlock samples (some c :: t) i = Except.ok r) ↔
              (∃ r, consumeBlock samples t (i + 2) = Except.ok r) := by
            simp only [consumeBlock, hhi, hlo]
            cases hrec : consumeBlock samples t (i + 2) with
            | ok pr => exact iff_of_true ⟨(_ :: pr.1, pr.2), rfl⟩ ⟨pr, rfl⟩
            | error e =>
              refine iff_of_false ?_ ?_ <;> rintro ⟨r, hr⟩ <;> simp at hr
          rw [hstep, ih (i + 2)]
          simp only [countActive]
          constructor
          · intro hx
            rcases hx with hx | hx <;> omega
          · intro hx
            rcases hx with hx | hx <;> omega

theorem consumeBlock_error_shape (samples : List ℕ) :
    ∀ (chs : List (Option RawChannel)) (i : ℕ) (e : PyError),
      consumeBlock samples chs i = Except.error e → ∃ m, e = PyError.indexError m := by
  intro chs
  induction chs with
  | nil => intro i e h; simp [consumeBlock] at h
  | cons x t ih =>
    intro i e h
    cases x with
    | none =>
      simp only [consumeBlock] at h
      cases hrec : consumeBlock samples t i with
      | ok pr => rw [hrec] at h; simp at h
      | error e2 =>
        rw [hrec] at h
        obtain rfl : e2 = e := by simpa using h
        exact ih i _ hrec
    | some c =>
      simp only [consumeBlock] at h
      cases hhi : samples[i]? with
      | none =>
        rw [hhi] at h
        cases hlo : samples[i + 1]? <;> rw [hlo] at h <;>
          exact ⟨_, by simpa using h.symm⟩
      | some hi =>
        rw [hhi] at h
        cases hlo : samples[i + 1]? with
        | none =>
          rw [hlo] at h
          exact ⟨_, by simpa using h.symm⟩
        | some lo =>
          rw [hlo] at h
          cases hrec : consumeBlock samples t (i + 2) with
          | ok pr => rw [hrec] at h; simp at h
          | error e2 =>
            rw [hrec] at h
            obtain rfl : e2 = e := by simpa using h
            exact ih (i + 2) _ hrec

theorem consumeBlocks_ok_facts (samples : List ℕ) :
    ∀ (n : ℕ) (chs : List (Option RawChannel)) (i : ℕ) (res : List (Option RawChannel)) (i2 : ℕ),
      consumeBlocks samples chs i n = Except.ok (res, i2) →
      i2 = i + 2 * countActive chs * n ∧ countActive res = countActive chs ∧
        ∀ j : ℕ, (res[j]?).map Option.isSome = (chs[j]?).map Option.isSome := by
  intro n
  induction n with
  | zero =>
    intro chs i res i2 h
    obtain ⟨h1, h2⟩ : chs = res ∧ i = i2 := by simpa [consumeBlocks] using h
    subst h1
    subst h2
    simp
  | succ n ih =>
    intro chs i res i2 h
    simp only [consumeBlocks] at h
    cases hb : consumeBlock samples chs i with
    | ok pr =>
      obtain ⟨chs2, i'⟩ := pr
      rw [hb] at h
      obtain ⟨b1, b2, b3⟩ := consumeBlock_ok_facts samples chs i chs2 i' hb
      obtain ⟨f1, f2, f3⟩ := ih chs2 i' res i2 h
      refine ⟨by rw [f1, b1, b2]; ring, by rw [f2, b2], ?_⟩
      intro j
      rw [f3 j, b3 j]
    | error e =>
      rw [hb] at h
      simp at h

theorem consumeBlocks_isOk_iff (samples : List ℕ) :
    ∀ (n : ℕ) (chs : List (Option RawChannel)) (i : ℕ),
      (∃ r, consumeBlocks samples chs i n = Except.ok r) ↔
        (countActive chs = 0 ∨ n = 0 ∨ i + 2 * countActive chs * n ≤ samples.length) := by
  intro n
  induction n with
  | zero =>
    intro chs i
    exact iff_of_true ⟨(chs, i), rfl⟩ (Or.inr (Or.inl rfl))
  | succ n ih =>
    intro chs i
    cases hb : consumeBlock samples chs i with
    | ok pr =>
      obtain ⟨chs2, i'⟩ := pr
      obtain ⟨b1, b2, b3⟩ := consumeBlock_ok_facts samples chs i chs2 i' hb
      have hbok : countActive chs = 0 ∨ i + 2 * countActive chs ≤ samples.length :=
        (consumeBlock_isOk_iff samples chs i).mp ⟨(chs2, i'), hb⟩
      have hstep : (∃ r, consumeBlocks samples chs i (n + 1) = Except.ok r) ↔
          (∃ r, consumeBlocks samples chs2 i' n = Except.ok r) := by
        simp only [consumeBlocks, hb]
      rw [hstep, ih chs2 i', b2, b1]
      have hsplit : 2 * countActive chs * (n + 1) =
          2 * countActive chs + 2 * countActive chs * n := by ring
      constructor
      · intro hx
        rcases hx with hx | hx | hx
        · exact Or.inl hx
        · subst hx
          rcases hbok with h0 | h1
          · exact Or.inl h0
          · right
            right
            simpa using h1
        · right
          right
          omega
      · intro hx
        rcases hx with hx | hx | hx
        · exact Or.inl hx
        · simp at hx
        · rcases Nat.eq_zero_or_pos (countActive chs) with h0 | h0
          · exact Or.inl h0
          · right
            right
            omega
    | error e =>
      have hbno : ¬ (countActive chs = 0 ∨ i + 2 * countActive chs ≤ samples.length) := by
        intro hcontra
        obtain ⟨r, hr⟩ := (consumeBlock_isOk_iff samples chs i).mpr hcontra
        rw [hb] at hr
        simp at hr
      have hnone : ¬ ∃ r, consumeBlocks samples chs i (n + 1) = Except.ok r := by
        rintro ⟨r, hr⟩
        simp [consumeBlocks, hb] at hr
      refine iff_of_false hnone ?_
      push_neg at hbno
      intro hcontra
      have hsplit : 2 * countActive chs * (n + 1) =
          2 * countActive chs + 2 * countActive chs * n := by ring
      rcases hcontra with h0 | h1 | h2
      · exact hbno.1 h0
      · simp at h1
      · have := hbno.2
        omega

theorem consumeBlocks_error_shape (samples : List ℕ) :
    ∀ (n : ℕ) (chs : List (Option RawChannel)) (i : ℕ) (e : PyError),
      consumeBlocks samples chs i n = Except.error e → ∃ m, e = PyError.indexError m := by
  intro n
  induction n with
  | zero => intro chs i e h; simp [consumeBlocks] at h
  | succ n ih =>
    intro chs i e h
    simp only [consumeBlocks] at h
    cases hb : consumeBlock samples chs i with
    | ok pr =>
      obtain ⟨chs2, i'⟩ := pr
      rw [hb] at h
      exact ih chs2 i' e h
    | error e2 =>
      rw [hb] at h
      obtain rfl : e2 = e := by simpa using h
      exact consumeBlock_error_shape samples chs i _ hb

/-- C4 (amended): repackageSamples consumes exactly
2 x (number of active pins) x (number of sample intervals) bytes when it
completes; it completes exactly when the buffer holds at least that many
bytes (surplus bytes are silently ignored, not signalled), and a shorter
buffer fails with an unguarded IndexError rather than a dedicated
corrupt-capture error.  (The amendment replaces the claimed corrupt-capture
size check, which the code does not perform, by the actual behaviour.) -/
theorem c4_bytes_consumed_and_size_behaviour (pins : List String) (n : ℕ) (samples : List ℕ)
    (chs0 : List (Option RawChannel)) (hinit : initChannels pins = Except.ok chs0) :
    ((∃ r, repackageSamples pins n samples = Except.ok r) ↔
      (countActive chs0 = 0 ∨ 2 * countActive chs0 * n ≤ samples.length))
    ∧ (∀ (res : List (Option RawChannel)) (i2 : ℕ),
        consumeBlocks samples chs0 0 n = Except.ok (res, i2) →
        i2 = 2 * countActive chs0 * n)
    ∧ (∀ e, repackageSamples pins n samples = Except.error e →
        ∃ m, e = PyError.indexError m) := by
  have hok : (∃ r, repackageSamples pins n samples = Except.ok r) ↔
      (∃ r, consumeBlocks samples chs0 0 n = Except.ok r) := by
    simp only [repackageSamples, hinit]
    cases hcb : consumeBlocks samples chs0 0 n with
    | ok pr =>
      obtain ⟨c2, i2⟩ := pr
      exact iff_of_true ⟨c2, rfl⟩ ⟨(c2, i2), rfl⟩
    | error e => refine iff_of_false ?_ ?_ <;> rintro ⟨r, hr⟩ <;> simp at hr
  refine ⟨?_, ?_, ?_⟩
  · rw [hok, consumeBlocks_isOk_iff]
    cases n with
    | zero => simp
    | succ m =>
      constructor
      · intro hx
        rcases hx with h | h | h
        · exact Or.inl h
        · simp at h
        · right
          simpa using h
      · intro hx
        rcases hx with h | h
        · exact Or.inl h
        · right
          right
          simpa using h
  · intro res i2 h
    have := (consumeBlocks_ok_facts samples n chs0 0 res i2 h).1
    simpa using this
  · intro e h
    simp only [repackageSamples, hinit] at h
    cases hcb : consumeBlocks samples chs0 0 n with
    | ok pr =>
      obtain ⟨c2, i2⟩ := pr
      rw [hcb] at h
      simp at h
    | error e2 =>
      rw [hcb] at h
      obtain rfl : e2 = e := by simpa using h
      exact consumeBlocks_error_shape samples n chs0 0 _ hcb

theorem isAudio_ok_valid {p : String} {b : Bool} (h : isAudio p = Except.ok b) :
    p ∈ validPinNames := by
  unfold isAudio at h
  split_ifs at h with h1 h2
  · rcases h1 with rfl | rfl <;> simp [validPinNames]
  · rcases h2 with rfl | rfl <;> simp [validPinNames]

theorem valid_pinMap_some {p : String} (h : p ∈ validPinNames) : ∃ j, pinMap p = some j := by
  rcases valid_cases h with rfl | rfl | rfl | rfl <;> exact ⟨_, rfl⟩

theorem initChannelsGo_ok_valid :
    ∀ (pins : List String) (acc res : List (Option RawChannel)),
      initChannelsGo acc pins = Except.ok res → ∀ p ∈ pins, p ∈ validPinNames := by
  intro pins
  induction pins with
  | nil => intro acc res h p hp; simp at hp
  | cons q rest ih =>
    intro acc res h p hp
    simp only [initChannelsGo] at h
    cases ha : isAudio q with
    | error e => rw [ha] at h; simp at h
    | ok b =>
      rw [ha] at h
      cases hm : pinMap q with
      | none => rw [hm] at h; simp at h
      | some idx =>
        rw [hm] at h
        rcases List.mem_cons.mp hp with rfl | hp2
        · exact isAudio_ok_valid ha
        · exact ih _ res h p hp2

theorem slotList_getElem (pins : List String) {j : ℕ} (hj : j < 4) :
    [slotView pins 0, slotView pins 1, slotView pins 2, slotView pins 3][j]? =
      some (slotView pins j) := by
  interval_cases j <;> rfl

theorem repackageSamples_slot_facts {pins : List String} {n : ℕ} {samples : List ℕ}
    {chs : List (Option RawChannel)}
    (hrep : repackageSamples pins n samples = Except.ok chs) :
    (∀ p ∈ pins, ∀ j, pinMap p = some j → ∃ c, chs[j]? = some (some c)) ∧
      (∀ k ∈ validPinNames, k ∉ pins → ∀ j, pinMap k = some j → chs[j]? = some none) := by
  simp only [repackageSamples] at hrep
  cases hinit : initChannels pins with
  | error e => rw [hinit] at hrep; simp at hrep
  | ok chs0 =>
    rw [hinit] at hrep
    have hval : ∀ p ∈ pins, p ∈ validPinNames := initChannelsGo_ok_valid pins _ chs0 hinit
    have hspec := initChannels_spec pins hval
    rw [hinit] at hspec
    obtain rfl : chs0 = [slotView pins 0, slotView pins 1, slotView pins 2, slotView pins 3] := by
      simpa using hspec
    simp only [] at hrep
    cases hcb : consumeBlocks samples
        [slotView pins 0, slotView pins 1, slotView pins 2, slotView pins 3] 0 n with
    | error e => rw [hcb] at hrep; simp at hrep
    | ok pr =>
      obtain ⟨res, i2⟩ := pr
      rw [hcb] at hrep
      obtain rfl : res = chs := by simpa using hrep
      obtain ⟨-, -, f3⟩ := consumeBlocks_ok_facts samples n _ 0 _ _ hcb
      constructor
      · intro p hmem j hpj
        have hj := pinMap_lt4 hpj
        have hsv := slotView_of_mem hmem hpj
        have hmap := f3 j
        rw [slotList_getElem pins hj, hsv] at hmap
        rcases hoc : res[j]? with _ | oc
        · rw [hoc] at hmap; simp at hmap
        · rw [hoc] at hmap
          rcases oc with _ | c
          · simp at hmap
          · exact ⟨c, rfl⟩
      · intro k hkval hknot j hkj
        have hj := pinMap_lt4 hkj
        have hina : slotActive pins j = false := by
          by_contra hact
          rw [Bool.not_eq_false, slotActive, List.any_eq_true] at hact
          obtain ⟨p, hpmem, hpj⟩ := hact
          have hpj2 : pinMap p = some j := by simpa using hpj
          exact hknot ((pinMap_inj hpj2 hkj) ▸ hpmem)
        have hsv : slotView pins j = none := slotView_of_inactive hina
        have hmap := f3 j
        rw [slotList_getElem pins hj, hsv] at hmap
        rcases hoc : res[j]? with _ | oc
        · rw [hoc] at hmap; simp at hmap
        · rw [hoc] at hmap
          rcases oc with _ | c
          · rfl
          · simp at hmap

theorem attachDurations_spec :
    ∀ (evs : List (String × ℚ)) (chs : List (Option RawChannel)),
      (∀ kd ∈ evs, ∀ j, pinMap kd.1 = some j → ∃ c, chs[j]? = some (some c)) →
      (evs.map Prod.fst).Nodup →
      (∀ kd ∈ evs, ∃ j, pinMap kd.1 = some j) →
      ∃ chs2, attachDurations evs chs = Except.ok chs2 ∧
        chs2.length = chs.length ∧
        (∀ kd ∈ evs, ∀ j, pinMap kd.1 = some j →
          ∃ c, chs2[j]? = some (some c) ∧ c.eventDuration = some kd.2) ∧
        (∀ j : ℕ, (∀ kd ∈ evs, pinMap kd.1 ≠ some j) → chs2[j]? = chs[j]?) := by
  intro evs
  induction evs with
  | nil =>
    intro chs _ _ _
    exact ⟨chs, rfl, rfl, by simp, fun j _ => rfl⟩
  | cons kd rest ih =>
    intro chs hslots hnodup hexists
    obtain ⟨k, d⟩ := kd
    obtain ⟨jk, hjk⟩ := hexists (k, d) (by simp)
    obtain ⟨c, hc⟩ := hslots (k, d) (by simp) jk hjk
    have hjk_lt : jk < chs.length := by
      by_contra hge
      rw [List.getElem?_eq_none_iff.mpr (by omega)] at hc
      simp at hc
    have hrest_ne : ∀ kd2 ∈ rest, (kd2 : String × ℚ).1 ≠ k := by
      intro kd2 hmem heq
      have : k ∈ rest.map Prod.fst := by
        rw [← heq]
        exact List.mem_map_of_mem Prod.fst hmem
      simp only [List.map_cons, List.nodup_cons] at hnodup
      exact hnodup.1 this
    have hrest_slot_ne : ∀ kd2 ∈ rest, ∀ j, pinMap (kd2 : String × ℚ).1 = some j → j ≠ jk := by
      intro kd2 hmem j hj heq
      subst heq
      exact hrest_ne kd2 hmem (pinMap_inj hj hjk)
    set chs1 := chs.set jk (some { c with eventDuration := some d }) with hchs1
    have hstep : attachDurations ((k, d) :: rest) chs = attachDurations rest chs1 := by
      simp only [attachDurations, hjk, hc]
    have hpre : ∀ kd2 ∈ rest, ∀ j, pinMap (kd2 : String × ℚ).1 = some j →
        ∃ c2, chs1[j]? = some (some c2) := by
      intro kd2 hmem j hj
      have hne := hrest_slot_ne kd2 hmem j hj
      rw [hchs1, List.getElem?_set_ne (by omega)]
      exact hslots kd2 (by simp [hmem]) j hj
    have hnodup2 : (rest.map Prod.fst).Nodup := by
      simp only [List.map_cons, List.nodup_cons] at hnodup
      exact hnodup.2
    have hex2 : ∀ kd2 ∈ rest, ∃ j, pinMap (kd2 : String × ℚ).1 = some j :=
      fun kd2 hmem => hexists kd2 (by simp [hmem])
    obtain ⟨chs2, hatt, hlen, hcontent, hframe⟩ := ih chs1 hpre hnodup2 hex2
    refine ⟨chs2, by rw [hstep, hatt], ?_, ?_, ?_⟩
    · rw [hlen, hchs1, List.length_set]
    · intro kd2 hmem j hj
      rcases List.mem_cons.mp hmem with heq | hmem2
      · obtain rfl : kd2 = (k, d) := heq
        simp only at hj
        obtain rfl : jk = j := Option.some.inj (hjk.symm.trans hj)
        have hfr : chs2[jk]? = chs1[jk]? := by
          refine hframe jk ?_
          intro kd3 hmem3 hj3
          exact hrest_slot_ne kd3 hmem3 jk hj3 rfl
        rw [hfr, hchs1, List.getElem?_set_self hjk_lt]
        exact ⟨_, rfl, rfl⟩
      · exact hcontent kd2 hmem2 j hj
    · intro j hnone
      have hjne : pinMap k ≠ some j := hnone (k, d) (by simp)
      have hne : j ≠ jk := by
        intro heq
        subst heq
        exact hjne hjk
      rw [hframe j (fun kd3 hmem3 => hnone kd3 (by simp [hmem3])), hchs1,
        List.getElem?_set_ne (by omega)]

theorem attachDurations_fails :
    ∀ (evs : List (String × ℚ)) (chs : List (Option RawChannel)) (j : ℕ),
      chs[j]? = some none → (∃ kd ∈ evs, pinMap (kd : String × ℚ).1 = some j) →
      ∃ e, attachDurations evs chs = Except.error e := by
  intro evs
  induction evs with
  | nil =>
    intro chs j _ hbad
    simp at hbad
  | cons kd rest ih =>
    intro chs j hslot hbad
    obtain ⟨k, d⟩ := kd
    cases hm : pinMap k with
    | none => exact ⟨PyError.keyError k, by simp [attachDurations, hm]⟩
    | some idx =>
      cases hidx : chs[idx]? with
      | none =>
        exact ⟨PyError.indexError "list index out of range", by simp [attachDurations, hm, hidx]⟩
      | some oc =>
        cases oc with
        | none =>
          exact ⟨PyError.typeError "NoneType object does not support item assignment",
            by simp [attachDurations, hm, hidx]⟩
        | some c =>
          have hne : j ≠ idx := by
            intro heq
            rw [heq, hidx] at hslot
            simp at hslot
          have hstep : attachDurations ((k, d) :: rest) chs =
              attachDurations rest (chs.set idx (some { c with eventDuration := some d })) := by
            simp only [attachDurations, hm, hidx]
          have hbad2 : ∃ kd2 ∈ rest, pinMap (kd2 : String × ℚ).1 = some j := by
            rcases hbad with ⟨kd2, hmem, hkd2⟩
            rcases List.mem_cons.mp hmem with heq | hmem2
            · obtain rfl : kd2 = (k, d) := heq
              simp only at hkd2
              rw [hm] at hkd2
              exact absurd (Option.some.inj hkd2) (fun h => hne h.symm)
            · exact ⟨kd2, hmem2, hkd2⟩
          have hslot2 : (chs.set idx (some { c with eventDuration := some d }))[j]? = some none := by
            rw [List.getElem?_set_ne (fun h => hne h.symm), hslot]
          obtain ⟨e, he⟩ := ih _ j hslot2 hbad2
          exact ⟨e, by rw [hstep, he]⟩

/-- C10 (confirmed): detectBeepsAndFlashes requires every key of the
eventDurations mapping to name a measured pin.  When every key is a measured
pin, the duration-attachment phase that precedes detection succeeds and
attaches each pin's duration to its channel; when some valid pin key is not
measured, that key's channel slot is None and the call fails, for every
possible detection function, before any detection is performed. -/
theorem c10_eventDurations_keys (st : Measurer) (chs : List (Option RawChannel)) (n : ℕ) (samples : List ℕ)
    (hch : st.channels = some chs)
    (hrep : repackageSamples st.pinsToMeasure n samples = Except.ok chs)
    (hnodup : (st.eventDurations.map Prod.fst).Nodup)
    (hvalkeys : ∀ kd ∈ st.eventDurations, (kd : String × ℚ).1 ∈ validPinNames) :
    ((∀ kd ∈ st.eventDurations, (kd : String × ℚ).1 ∈ st.pinsToMeasure) →
      ∃ chs2, attachDurations st.eventDurations chs = Except.ok chs2 ∧
        ∀ kd ∈ st.eventDurations, ∀ j, pinMap (kd : String × ℚ).1 = some j →
          ∃ c, chs2[j]? = some (some c) ∧ c.eventDuration = some (kd : String × ℚ).2)
    ∧ (∀ kd ∈ st.eventDurations, (kd : String × ℚ).1 ∉ st.pinsToMeasure →
        (∀ j, pinMap (kd : String × ℚ).1 = some j → chs[j]? = some none) ∧
        (∀ runDetection dispersionFunc,
          ∃ e, st.detectBeepsAndFlashes runDetection dispersionFunc = Except.error e)) := by
  obtain ⟨hactive, hinactive⟩ := repackageSamples_slot_facts hrep
  constructor
  · intro hallmem
    have hpre : ∀ kd ∈ st.eventDurations, ∀ j, pinMap (kd : String × ℚ).1 = some j →
        ∃ c, chs[j]? = some (some c) :=
      fun kd hmem j hj => hactive kd.1 (hallmem kd hmem) j hj
    have hex : ∀ kd ∈ st.eventDurations, ∃ j, pinMap (kd : String × ℚ).1 = some j :=
      fun kd hmem => valid_pinMap_some (hvalkeys kd hmem)
    obtain ⟨chs2, hatt, _, hcontent, _⟩ := attachDurations_spec st.eventDurations chs hpre hnodup hex
    exact ⟨chs2, hatt, hcontent⟩
  · intro kd hmem hnotmem
    have hkval := hvalkeys kd hmem
    have hslotnone : ∀ j, pinMap (kd : String × ℚ).1 = some j → chs[j]? = some none :=
      fun j hj => hinactive kd.1 hkval hnotmem j hj
    refine ⟨hslotnone, ?_⟩
    intro runDetection dispersionFunc
    obtain ⟨j, hj⟩ := valid_pinMap_some hkval
    obtain ⟨e, he⟩ := attachDurations_fails st.eventDurations chs j (hslotnone j hj)
      ⟨kd, hmem, hj⟩
    refine ⟨e, ?_⟩
    simp only [Measurer.detectBeepsAndFlashes, hch, he]

theorem capture_master_eq (env : CaptureEnv) (st : Measurer) (hpins : st.nActivePins > 0)
    (hrole : st.role = "master") (chs : List (Option RawChannel))
    (hrep : repackageSamples st.pinsToMeasure env.deviceCapture.nMilliBlocks env.bulkSamples =
      Except.ok chs) :
    st.capture env = Except.ok
      ({ st with
          channels := some chs,
          dueStartTimeUsecs := some env.deviceCapture.dueStartTimeUsecs,
          dueFinishTimeUsecs := some env.deviceCapture.dueFinishTimeUsecs,
          wcAcReqResp := some (env.deviceCapture.timeDataPre, env.deviceCapture.timeDataPost),
          wcSyncTimeCorrelations := some [snapShot (env.obs 0), snapShot (env.obs 1)] },
       [CaptureEvent.snapshot 0, CaptureEvent.deviceCapture, CaptureEvent.bulkTransfer,
        CaptureEvent.snapshot 1]) := by
  have hcap : captureAndPackageIntoChannels env st.pinsToMeasure =
      Except.ok (chs, env.deviceCapture.dueStartTimeUsecs, env.deviceCapture.dueFinishTimeUsecs,
        env.deviceCapture.timeDataPre, env.deviceCapture.timeDataPost) := by
    simp only [captureAndPackageIntoChannels, hrep]
  simp [Measurer.capture, hpins, hrole, hcap]

theorem capture_client_eq (env : CaptureEnv) (st : Measurer) (hpins : st.nActivePins > 0)
    (hrole : st.role = "client") (chs : List (Option RawChannel))
    (hrep : repackageSamples st.pinsToMeasure env.deviceCapture.nMilliBlocks env.bulkSamples =
      Except.ok chs) :
    st.capture env = Except.ok
      ({ st with
          channels := some chs,
          dueStartTimeUsecs := some env.deviceCapture.dueStartTimeUsecs,
          dueFinishTimeUsecs := some env.deviceCapture.dueFinishTimeUsecs,
          wcAcReqResp := some (env.deviceCapture.timeDataPre, env.deviceCapture.timeDataPost),
          wcSyncTimeCorrelations := some st.timestampedReceivedControlTimeStamps },
       [CaptureEvent.deviceCapture, CaptureEvent.bulkTransfer]) := by
  have hcap : captureAndPackageIntoChannels env st.pinsToMeasure =
      Except.ok (chs, env.deviceCapture.dueStartTimeUsecs, env.deviceCapture.dueFinishTimeUsecs,
        env.deviceCapture.timeDataPre, env.deviceCapture.timeDataPost) := by
    simp only [captureAndPackageIntoChannels, hrep]
  simp [Measurer.capture, hpins, hrole, hcap]

theorem capture_other_eq (env : CaptureEnv) (st : Measurer) (hpins : st.nActivePins > 0)
    (hm : ¬ st.role = "master") (hc : ¬ st.role = "client") (chs : List (Option RawChannel))
    (hrep : repackageSamples st.pinsToMeasure env.deviceCapture.nMilliBlocks env.bulkSamples =
      Except.ok chs) :
    st.capture env = Except.ok
      ({ st with
          channels := some chs,
          dueStartTimeUsecs := some env.deviceCapture.dueStartTimeUsecs,
          dueFinishTimeUsecs := some env.deviceCapture.dueFinishTimeUsecs,
          wcAcReqResp := some (env.deviceCapture.timeDataPre, env.deviceCapture.timeDataPost) },
       [CaptureEvent.deviceCapture, CaptureEvent.bulkTransfer]) := by
  have hcap : captureAndPackageIntoChannels env st.pinsToMeasure =
      Except.ok (chs, env.deviceCapture.dueStartTimeUsecs, env.deviceCapture.dueFinishTimeUsecs,
        env.deviceCapture.timeDataPre, env.deviceCapture.timeDataPost) := by
    simp only [captureAndPackageIntoChannels, hrep]
  simp [Measurer.capture, hpins, hm, hc, hcap]

/-- C1 (amended): for every session with at least one active pin whose raw
buffer repackages successfully, capture() in role master stores exactly the
two correlation snapshots [pre, post], with the pre snapshot event before the
device round trip and bulk transfer events and the post snapshot after them,
while in role client it stores the list of correlations recorded so far by
the tracker callback.  (The amendment restricts the original claim to
sessions with at least one active pin: with none, capture() is a no-op.) -/
theorem c1_role_dependent_correlation_acquisition (env : CaptureEnv) (st : Measurer) (hpins : st.nActivePins > 0)
    (chs : List (Option RawChannel))
    (hrep : repackageSamples st.pinsToMeasure env.deviceCapture.nMilliBlocks env.bulkSamples =
      Except.ok chs) :
    (st.role = "master" → st.capture env = Except.ok
      ({ st with
          channels := some chs,
          dueStartTimeUsecs := some env.deviceCapture.dueStartTimeUsecs,
          dueFinishTimeUsecs := some env.deviceCapture.dueFinishTimeUsecs,
          wcAcReqResp := some (env.deviceCapture.timeDataPre, env.deviceCapture.timeDataPost),
          wcSyncTimeCorrelations := some [snapShot (env.obs 0), snapShot (env.obs 1)] },
       [CaptureEvent.snapshot 0, CaptureEvent.deviceCapture, CaptureEvent.bulkTransfer,
        CaptureEvent.snapshot 1]))
    ∧ (st.role = "client" → st.capture env = Except.ok
      ({ st with
          channels := some chs,
          dueStartTimeUsecs := some env.deviceCapture.dueStartTimeUsecs,
          dueFinishTimeUsecs := some env.deviceCapture.dueFinishTimeUsecs,
          wcAcReqResp := some (env.deviceCapture.timeDataPre, env.deviceCapture.timeDataPost),
          wcSyncTimeCorrelations := some st.timestampedReceivedControlTimeStamps },
       [CaptureEvent.deviceCapture, CaptureEvent.bulkTransfer])) :=
  ⟨fun hrole => capture_master_eq env st hpins hrole chs hrep,
   fun hrole => capture_client_eq env st hpins hrole chs hrep⟩

/-- C6 (amended): for every constructed session with at least one active pin
whose raw buffer repackages successfully, a capture() call produces exactly
one capture window (due start time, due finish time and pre/post round-trip
timing samples) and exactly one raw sample buffer repackaged into channels:
the device capture and bulk transfer events each occur exactly once in the
call's trace.  (The amendment restricts the original claim to sessions with
at least one active pin: with none, capture() produces nothing.) -/
theorem c6_capture_window_and_buffer (env : CaptureEnv) (st : Measurer) (hpins : st.nActivePins > 0)
    (chs : List (Option RawChannel))
    (hrep : repackageSamples st.pinsToMeasure env.deviceCapture.nMilliBlocks env.bulkSamples =
      Except.ok chs) :
    ∃ st2 tr, st.capture env = Except.ok (st2, tr) ∧
      st2.dueStartTimeUsecs = some env.deviceCapture.dueStartTimeUsecs ∧
      st2.dueFinishTimeUsecs = some env.deviceCapture.dueFinishTimeUsecs ∧
      st2.wcAcReqResp = some (env.deviceCapture.timeDataPre, env.deviceCapture.timeDataPost) ∧
      st2.channels = some chs ∧
      tr.count CaptureEvent.deviceCapture = 1 ∧ tr.count CaptureEvent.bulkTransfer = 1 := by
  by_cases hm : st.role = "master"
  · exact ⟨_, _, capture_master_eq env st hpins hm chs hrep, rfl, rfl, rfl, rfl,
      by decide, by decide⟩
  · by_cases hc : st.role = "client"
    · exact ⟨_, _, capture_client_eq env st hpins hc chs hrep, rfl, rfl, rfl, rfl,
        by decide, by decide⟩
    · exact ⟨_, _, capture_other_eq env st hpins hm hc chs hrep, rfl, rfl, rfl, rfl,
        by decide, by decide⟩

theorem capture_log_eq (env : CaptureEnv) (st st2 : Measurer) (tr : List CaptureEvent)
    (h : st.capture env = Except.ok (st2, tr)) :
    st2.timestampedReceivedControlTimeStamps = st.timestampedReceivedControlTimeStamps := by
  by_cases hp : st.nActivePins > 0
  · by_cases hm : st.role = "master"
    · cases hcap : captureAndPackageIntoChannels env st.pinsToMeasure with
      | error e => simp [Measurer.capture, hp, hm, hcap] at h
      | ok pr =>
        obtain ⟨chs, ds, df, tp, tq⟩ := pr
        simp [Measurer.capture, hp, hm, hcap] at h
        obtain ⟨h1, -⟩ := h
        rw [← h1]
    · by_cases hc : st.role = "client"
      · cases hcap : captureAndPackageIntoChannels env st.pinsToMeasure with
        | error e => simp [Measurer.capture, hp, hm, hc, hcap] at h
        | ok pr =>
          obtain ⟨chs, ds, df, tp, tq⟩ := pr
          simp [Measurer.capture, hp, hm, hc, hcap] at h
          obtain ⟨h1, -⟩ := h
          rw [← h1]
      · cases hcap : captureAndPackageIntoChannels env st.pinsToMeasure with
        | error e => simp [Measurer.capture, hp, hm, hc, hcap] at h
        | ok pr =>
          obtain ⟨chs, ds, df, tp, tq⟩ := pr
          simp [Measurer.capture, hp, hm, hc, hcap] at h
          obtain ⟨h1, -⟩ := h
          rw [← h1]
  · simp [Measurer.capture, hp] at h
    obtain ⟨h1, -⟩ := h
    rw [← h1]

/-- C9 (amended): over any sequence of session operations that does not
re-invoke setSyncTimeLinelockController, the client-role correlation log is
append-only: the final log is the initial log followed by exactly one entry,
in order, per ctsRecorder invocation, and capture operations do not modify
it.  (The amendment excludes re-invoking setSyncTimeLinelockController, which
reinitialises the log and so removes previously appended entries.) -/
theorem c9_log_append_only :
    ∀ (ops : List SessionOp) (st st2 : Measurer),
      (∀ op ∈ ops, op.isSetController = false) →
      applyOps ops st = Except.ok st2 →
      st2.timestampedReceivedControlTimeStamps =
        st.timestampedReceivedControlTimeStamps ++ recordedEntries ops := by
  intro ops
  induction ops with
  | nil =>
    intro st st2 _ happ
    obtain rfl : st = st2 := by simpa [applyOps] using happ
    simp [recordedEntries]
  | cons op rest ih =>
    intro st st2 hno happ
    simp only [applyOps] at happ
    cases op with
    | recordCts w c =>
      simp only [applyOp] at happ
      have := ih (st.ctsRecorder w c) st2 (fun o ho => hno o (by simp [ho])) happ
      rw [this]
      simp [Measurer.ctsRecorder, recordedEntries]
    | setController =>
      have := hno SessionOp.setController (by simp)
      simp [SessionOp.isSetController] at this
    | runCapture env =>
      simp only [applyOp] at happ
      cases hcap : st.capture env with
      | error e => rw [hcap] at happ; simp at happ
      | ok pr =>
        obtain ⟨stc, trc⟩ := pr
        rw [hcap] at happ
        have hlog := capture_log_eq env st stc trc hcap
        have := ih stc st2 (fun o ho => hno o (by simp [ho])) happ
        rw [this, hlog]
        simp [recordedEntries]

/-- C2 (confirmed): doComparison raises the DubiousInput error exactly when
the observed sequence is empty or longer than the expected sequence
(M = 0 or M > N), and on such inputs no comparison result is produced. -/
theorem c2_doComparison_dubious_input_iff (f : (List ℚ × List ℚ) → ℚ → ℚ → ℕ × List ℚ × List (ℚ × ℚ))
    (st : Measurer) (ch : ComparisonChannel) :
    (doComparison f st ch = Except.error (PyError.dubiousInput "poor data or no data") ↔
      (ch.observed.length = 0 ∨ ch.observed.length > ch.expected.length))
    ∧ ((ch.observed.length = 0 ∨ ch.observed.length > ch.expected.length) →
        ∀ r, doComparison f st ch ≠ Except.ok r) := by
  have hcond : (((ch.observed.length : ℤ) - (ch.expected.length : ℤ) > 0) ∨
      ch.observed.length = 0) ↔
      (ch.observed.length = 0 ∨ ch.observed.length > ch.expected.length) := by
    omega
  constructor
  · unfold doComparison
    split_ifs with hif
    · exact iff_of_true rfl (hcond.mp hif)
    · refine iff_of_false ?_ (fun hc => hif (hcond.mpr hc))
      cases hf : f (ch.observed, ch.expected) st.videoStartTicks st.syncClockTickRate with
      | mk mi rest => simp
  · intro hc r
    unfold doComparison
    rw [if_pos (hcond.mpr hc)]
    simp

/-- C7 (confirmed): doComparison normalizes all outputs to seconds.  Whatever
triple (matchIndex, expected, diffsAndErrors) the comparison backend returns,
doComparison returns matchIndex unchanged, each expected time converted as
(e - videoStartTicks) / syncClockTickRate, and each (difference, errorBound)
pair converted by exact division by syncClockTickRate. -/
theorem c7_doComparison_normalizes_to_seconds (f : (List ℚ × List ℚ) → ℚ → ℚ → ℕ × List ℚ × List (ℚ × ℚ))
    (st : Measurer) (ch : ComparisonChannel)
    (h1 : 0 < ch.observed.length) (h2 : ch.observed.length ≤ ch.expected.length) :
    doComparison f st ch = Except.ok
      ((f (ch.observed, ch.expected) st.videoStartTicks st.syncClockTickRate).1,
       (f (ch.observed, ch.expected) st.videoStartTicks st.syncClockTickRate).2.1.map
         (fun e => (e - st.videoStartTicks) / st.syncClockTickRate),
       (f (ch.observed, ch.expected) st.videoStartTicks st.syncClockTickRate).2.2.map
         (fun de => (de.1 / st.syncClockTickRate, de.2 / st.syncClockTickRate))) := by
  unfold doComparison
  rw [if_neg (by omega)]

/-- C5 (confirmed): for every set of valid pins, Measurer construction raises
a configuration error (ValueError) whenever the capture device reports an
active-pin count different from the number of requested pins, and passes the
check exactly when the two counts are equal. -/
theorem c5_active_pin_count_check (role : String) (pins : List String)
    (expT : List (String × List ℚ)) (evD : List (String × ℚ))
    (v r w a : ℚ) (devicePins : ℕ)
    (hval : ∀ p ∈ pins, p ∈ validPinNames) :
    (devicePins ≠ pins.length →
      measurerInit role pins expT evD v r w a devicePins =
        Except.error (PyError.valueError "# activated pins mismatches request: "))
    ∧ (devicePins = pins.length →
      ∃ st, measurerInit role pins expT evD v r w a devicePins = Except.ok st ∧
        st.nActivePins = devicePins ∧ st.pinsToMeasure = pins ∧ st.role = role) := by
  have hact := activatePinReading_valid hval
  constructor
  · intro hne
    simp [measurerInit, hact, hne]
  · intro heq
    refine ⟨{ role := role,
              pinsToMeasure := pins, expectedTimings := expT,
              eventDurations := evD, videoStartTicks := v, syncClockTickRate := r,
              wcPrecisionNanos := w, acPrecisionNanos := a, nActivePins := devicePins,
              timestampedReceivedControlTimeStamps := [],
              wcSyncTimeCorrelations := none, channels := none,
              dueStartTimeUsecs := none, dueFinishTimeUsecs := none,
              wcAcReqResp := none, testPackage := none }, ?_, rfl, rfl, rfl⟩
    simp [measurerInit, hact, heq]

/-- C8 (confirmed): pin modality is a pure total function of the pin
identifier: isAudio returns True for AUDIO_0 and AUDIO_1, False for LIGHT_0
and LIGHT_1, and raises a configuration error (ValueError) for every other
input string. -/
theorem c8_isAudio_modality :
    isAudio "AUDIO_0" = Except.ok true ∧ isAudio "AUDIO_1" = Except.ok true ∧
    isAudio "LIGHT_0" = Except.ok false ∧ isAudio "LIGHT_1" = Except.ok false ∧
    ∀ p : String, p ∉ validPinNames →
      ∃ m, isAudio p = Except.error (PyError.valueError m) := by
  refine ⟨rfl, rfl, rfl, rfl, ?_⟩
  intro p hp
  simp only [validPinNames, List.mem_cons, List.not_mem_nil, or_false, not_or] at hp
  obtain ⟨h1, h2, h3, h4⟩ := hp
  unfold isAudio
  rw [if_neg (by tauto), if_neg (by tauto)]
  exact ⟨_, rfl⟩

/-- Counterexample for C1 as stated: a session constructed with role master
and an empty pin set (device reporting zero active pins) is accepted by the
constructor, yet capture() takes no snapshot at all and stores no correlation
list, instead of storing exactly two snapshots. -/
theorem c1_counterexample :
    measurerInit "master" [] [] [] 0 1 0 0 0 = Except.ok exMasterEmpty ∧
    exMasterEmpty.role = "master" ∧
    exMasterEmpty.capture exEnv0 = Except.ok (exMasterEmpty, []) ∧
    exMasterEmpty.wcSyncTimeCorrelations = none ∧
    ∀ cs : List CorrelationQ, ¬ exMasterEmpty.wcSyncTimeCorrelations = some cs :=
  ⟨rfl, rfl, rfl, rfl, fun cs h => by simp [exMasterEmpty] at h⟩

/-- Counterexample for C6 as stated: a session constructed with role client
and an empty pin set is accepted by the constructor, yet capture() produces
no capture window and no repackaged buffer. -/
theorem c6_counterexample :
    measurerInit "client" [] [] [] 0 1 0 0 0 = Except.ok exClientEmpty ∧
    exClientEmpty.capture exEnv0 = Except.ok (exClientEmpty, []) ∧
    exClientEmpty.channels = none ∧
    exClientEmpty.dueStartTimeUsecs = none ∧
    exClientEmpty.dueFinishTimeUsecs = none ∧
    exClientEmpty.wcAcReqResp = none :=
  ⟨rfl, rfl, rfl, rfl, rfl, rfl⟩

/-- Counterexample for C9 as stated: invoking setSyncTimeLinelockController
on a session whose log already holds an appended entry resets the log to
empty, removing that entry, so a session operation does remove appended
entries. -/
theorem c9_counterexample :
    exClient1.timestampedReceivedControlTimeStamps = [(1, (2, 3, 1))] ∧
    applyOp SessionOp.setController exClient1 =
      Except.ok { exClient1 with timestampedReceivedControlTimeStamps := [] } ∧
    ({ exClient1 with
        timestampedReceivedControlTimeStamps :=
          ([] : List CorrelationQ) }).timestampedReceivedControlTimeStamps = [] :=
  ⟨rfl, rfl, rfl⟩

/-- Counterexample for C4 as stated: a one-pin, one-interval capture needs 2
bytes, but a 3-byte buffer is accepted without any corrupt-capture error and
the surplus byte is silently ignored. -/
theorem c4_counterexample :
    repackageSamples [ "LIGHT_0"] 1 [5, 3, 99] = Except.ok exChs1 ∧
    ([5, 3, 99] : List ℕ).length ≠ 2 * 1 * 1 :=
  ⟨rfl, by decide⟩

/-- Witness for C1 at a concrete one-pin master session and client session. -/
theorem c1_witness :
    exMaster1.capture exEnv1 = Except.ok
      ({ exMaster1 with
          channels := some exChs1,
          dueStartTimeUsecs := some exEnv1.deviceCapture.dueStartTimeUsecs,
          dueFinishTimeUsecs := some exEnv1.deviceCapture.dueFinishTimeUsecs,
          wcAcReqResp := some (exEnv1.deviceCapture.timeDataPre, exEnv1.deviceCapture.timeDataPost),
          wcSyncTimeCorrelations := some [snapShot (exEnv1.obs 0), snapShot (exEnv1.obs 1)] },
       [CaptureEvent.snapshot 0, CaptureEvent.deviceCapture, CaptureEvent.bulkTransfer,
        CaptureEvent.snapshot 1]) ∧
    exClient1.capture exEnv1 = Except.ok
      ({ exClient1 with
          channels := some exChs1,
          dueStartTimeUsecs := some exEnv1.deviceCapture.dueStartTimeUsecs,
          dueFinishTimeUsecs := some exEnv1.deviceCapture.dueFinishTimeUsecs,
          wcAcReqResp := some (exEnv1.deviceCapture.timeDataPre, exEnv1.deviceCapture.timeDataPost),
          wcSyncTimeCorrelations := some exClient1.timestampedReceivedControlTimeStamps },
       [CaptureEvent.deviceCapture, CaptureEvent.bulkTransfer]) :=
  ⟨(c1_role_dependent_correlation_acquisition exEnv1 exMaster1 (by decide) exChs1 rfl).1 rfl,
   (c1_role_dependent_correlation_acquisition exEnv1 exClient1 (by decide) exChs1 rfl).2 rfl⟩

/-- Witness for C6 at a concrete one-pin client session. -/
theorem c6_witness :
    ∃ st2 tr, exClient1.capture exEnv1 = Except.ok (st2, tr) ∧
      st2.dueStartTimeUsecs = some exEnv1.deviceCapture.dueStartTimeUsecs ∧
      st2.dueFinishTimeUsecs = some exEnv1.deviceCapture.dueFinishTimeUsecs ∧
      st2.wcAcReqResp = some (exEnv1.deviceCapture.timeDataPre, exEnv1.deviceCapture.timeDataPost) ∧
      st2.channels = some exChs1 ∧
      tr.count CaptureEvent.deviceCapture = 1 ∧ tr.count CaptureEvent.bulkTransfer = 1 :=
  c6_capture_window_and_buffer exEnv1 exClient1 (by decide) exChs1 rfl

/-- Witness for C9 at a concrete single recordCts operation. -/
theorem c9_witness :
    (exClient1.ctsRecorder 4
        { wallClockTime := 5, contentTime := 6, timelineSpeedMultiplier := 1 }).timestampedReceivedControlTimeStamps =
      exClient1.timestampedReceivedControlTimeStamps ++
        recordedEntries [SessionOp.recordCts 4
          { wallClockTime := 5, contentTime := 6, timelineSpeedMultiplier := 1 }] :=
  c9_log_append_only
    [SessionOp.recordCts 4 { wallClockTime := 5, contentTime := 6, timelineSpeedMultiplier := 1 }]
    exClient1 _
    (by
      intro op hop
      rw [List.mem_singleton] at hop
      subst hop
      rfl)
    rfl

/-- Witness for C2 at a concrete empty observed sequence. -/
theorem c2_witness :
    doComparison (fun _ _ _ => (0, [], [])) exMaster1
      { pinName := "LIGHT_0", observed := [], expected := [1] } =
      Except.error (PyError.dubiousInput "poor data or no data") :=
  (c2_doComparison_dubious_input_iff (fun _ _ _ => (0, [], [])) exMaster1
    { pinName := "LIGHT_0", observed := [], expected := [1] }).1.mpr (by decide)

/-- Witness for C7 at a concrete backend result, evaluated to literals. -/
theorem c7_witness :
    doComparison (fun _ _ _ => (2, [3, 5], [(1, 2)])) exMaster1
      { pinName := "LIGHT_0", observed := [10], expected := [10, 20] } =
      Except.ok (2, [3 / 50, 1 / 10], [(1 / 50, 1 / 25)]) := by
  have h := c7_doComparison_normalizes_to_seconds (fun _ _ _ => (2, [3, 5], [(1, 2)])) exMaster1
    { pinName := "LIGHT_0", observed := [10], expected := [10, 20] } (by decide) (by decide)
  rw [h]
  norm_num [exMaster1, exMasterEmpty]

/-- Witness for C5 at a concrete one-pin request with device counts 2 and 1. -/
theorem c5_witness :
    (measurerInit "master" [ "LIGHT_0"] [] [] 0 1 0 0 2 =
      Except.error (PyError.valueError "# activated pins mismatches request: ")) ∧
    ∃ st, measurerInit "master" [ "LIGHT_0"] [] [] 0 1 0 0 1 = Except.ok st ∧
      st.nActivePins = 1 ∧ st.pinsToMeasure = [ "LIGHT_0"] ∧ st.role = "master" :=
  ⟨(c5_active_pin_count_check "master" [ "LIGHT_0"] [] [] 0 1 0 0 2 (by decide)).1 (by decide),
   (c5_active_pin_count_check "master" [ "LIGHT_0"] [] [] 0 1 0 0 1 (by decide)).2 rfl⟩

/-- Witness for C8 at a concrete unrecognised pin name. -/
theorem c8_witness : ∃ m, isAudio "BOGUS" = Except.error (PyError.valueError m) :=
  c8_isAudio_modality.2.2.2.2 "BOGUS" (by decide)

/-- Witness for C3 at a concrete one-pin buffer of two intervals. -/
theorem c3_witness :
    ∃ chs, repackageSamples [ "AUDIO_0"] 2
        (interleavedBuffer [ "AUDIO_0"] exMaxVals exMinVals 2) = Except.ok chs ∧
      chs.length = 4 ∧
      (∀ j, j < 4 → slotActive [ "AUDIO_0"] j = false → chs[j]? = some none) ∧
      (∀ p ∈ [ "AUDIO_0"], ∀ j, pinMap p = some j →
        chs[j]? = some (some
          { pinName := p, isAudio := audioFlag p,
            max := (List.range 2).map (fun blk => exMaxVals j blk),
            min := (List.range 2).map (fun blk => exMinVals j blk),
            eventDuration := none })) :=
  c3_channel_repackaging_roundtrip [ "AUDIO_0"] exMaxVals exMinVals 2 (by decide) (by decide) (by decide)

/-- Witness for C4 at a concrete oversized three-byte buffer. -/
theorem c4_witness :
    ((∃ r, repackageSamples [ "LIGHT_0"] 1 [5, 3, 99] = Except.ok r) ↔
      (countActive exInitChs = 0 ∨ 2 * countActive exInitChs * 1 ≤ ([5, 3, 99] : List ℕ).length))
    ∧ (∀ (res : List (Option RawChannel)) (i2 : ℕ),
        consumeBlocks [5, 3, 99] exInitChs 0 1 = Except.ok (res, i2) →
        i2 = 2 * countActive exInitChs * 1)
    ∧ (∀ e, repackageSamples [ "LIGHT_0"] 1 [5, 3, 99] = Except.error e →
        ∃ m, e = PyError.indexError m) :=
  c4_bytes_consumed_and_size_behaviour [ "LIGHT_0"] 1 [5, 3, 99] exInitChs rfl

/-- Witness for C10 at a concrete one-pin capture with a matching duration key. -/
theorem c10_witness :
    ((∀ kd ∈ exDetect1.eventDurations, (kd : String × ℚ).1 ∈ exDetect1.pinsToMeasure) →
      ∃ chs2, attachDurations exDetect1.eventDurations exChs1 = Except.ok chs2 ∧
        ∀ kd ∈ exDetect1.eventDurations, ∀ j, pinMap (kd : String × ℚ).1 = some j →
          ∃ c, chs2[j]? = some (some c) ∧ c.eventDuration = some (kd : String × ℚ).2)
    ∧ (∀ kd ∈ exDetect1.eventDurations, (kd : String × ℚ).1 ∉ exDetect1.pinsToMeasure →
        (∀ j, pinMap (kd : String × ℚ).1 = some j → exChs1[j]? = some none) ∧
        (∀ runDetection dispersionFunc,
          ∃ e, exDetect1.detectBeepsAndFlashes runDetection dispersionFunc = Except.error e)) :=
  c10_eventDurations_keys exDetect1 exChs1 1 [5, 3] rfl rfl (by decide) (by decide)
